import Mathlib

/-!
# vault-plugin-auth-azure: login pipeline, renewal handler and role store

A shallow embedding of `plugin/path_login.go` and `plugin/path_role.go`.

* Go `int`, `int64` and `time.Duration` are mathematical integers wrapped to 64 bits where the
  source does arithmetic on them (`wrapInt64`).
* A Go `error` is the string it carries; a nil `error` or nil pointer is `none`.
* A handler returning `(*logical.Response, error)` returns a record with `resp` and `err`.
  Handlers that write storage also return the storage after the call; the login handlers also
  return the list of collaborators they called, in call order.
* The collaborators outside the two source files (backend configuration, OIDC verifier, lease
  extension helper, policy parsing, the wall clock) are parameters.
-/

namespace AzureAuth

/-! ## Machine integers, durations, instants -/

/-- Two's-complement wrap of an integer to the range of Go's 64-bit `int` and `int64`. -/
def wrapInt64 (x : Int) : Int := (x + 2 ^ 63) % 2 ^ 64 - 2 ^ 63

/-- Go `time.Second`: a `time.Duration` counts nanoseconds. -/
def time.Second : Int := 1000000000

/-- Go `time.Second * time.Duration(n)` for an `int` value `n`: a wrapping 64-bit product. -/
def secondsToDuration (n : Int) : Int := wrapInt64 (time.Second * n)

/-- An instant (`time.Time`), as nanoseconds relative to the Unix epoch. -/
abbrev Time := Int

/-- The zero value of `time.Time`: January 1, year 1, 00:00:00 UTC. -/
def time.zero : Time := -62135596800 * 1000000000

/-- Go `time.Unix(sec, 0)`. -/
def time.Unix (sec : Int) : Time := sec * 1000000000

/-- Go `t.After(u)`. -/
def time.After (t u : Time) : Bool := decide (u < t)

/-! ## Strings -/

/-- Go `strings.ToLower`. Case mapping outside ASCII is not modelled: the role paths only accept
names matching `framework.GenericNameRegex`, which are ASCII. -/
def strings.ToLower (s : String) : String := String.mk (s.data.map Char.toLower)

/-- The text `fmt` produces for a `%q` verb on a string: the string in double quotes. Escaping of
quotes, backslashes and non-printable characters inside it is not modelled. -/
def fmt.q (s : String) : String := String.mk ([Char.ofNat 34] ++ s.data ++ [Char.ofNat 34])

/-- The text `fmt` produces for a duration or an instant. Go prints a calendar date or a
`1h0m0s` style duration; here the integer is printed. Only the constant part of a message is
meaningful. -/
def fmt.v (n : Int) : String := toString n

/-! ## Role entries and storage -/

/-- The persisted role record (`roleEntry`). -/
structure roleEntry where
  Policies : List String
  NumUses : Int
  TTL : Int
  MaxTTL : Int
  Period : Int
deriving DecidableEq, Repr

/-- The zero value `&roleEntry{}`. -/
def roleEntry.zero : roleEntry := ⟨[], 0, 0, 0, 0⟩

/-- The value bytes of a storage entry, identified with what `json.Unmarshal` into a `roleEntry`
makes of them: either they decode to a role entry, or decoding fails with an error. -/
inductive Bytes where
  | roleJSON (r : roleEntry)
  | malformed (err : String)
deriving DecidableEq, Repr

/-- Go `logical.StorageEntry`. -/
structure StorageEntry where
  Key : String
  Value : Bytes
deriving DecidableEq, Repr

/-- Go `json.Unmarshal(raw.Value, role)`. -/
def json.Unmarshal : Bytes → Except String roleEntry
  | .roleJSON r => .ok r
  | .malformed err => .error err

/-- Go `logical.StorageEntryJSON(k, v)` for a role entry: marshalling a `roleEntry` cannot fail,
and the bytes decode back to the same entry. -/
def logical.StorageEntryJSON (k : String) (v : roleEntry) : Except String (Option StorageEntry) :=
  .ok (some ⟨k, .roleJSON v⟩)

/-- The operations of `logical.Storage` used by the role store. -/
inductive StorageOp where
  | Get
  | Put
  | Delete
deriving DecidableEq, Repr

/-- An I/O failure of the storage backend: operation `op` on `key` fails with `err`. -/
structure Fault where
  op : StorageOp
  key : String
  err : String
deriving DecidableEq, Repr

/-- The external key/value store (`logical.Storage`): the entries it holds, at most one of which
is found per key, and the operations that currently fail. -/
structure Storage where
  entries : List (String × Bytes)
  faults : List Fault
deriving DecidableEq, Repr

/-- The error, if any, with which operation `op` on `key` fails. -/
def Storage.fault (s : Storage) (op : StorageOp) (key : String) : Option String :=
  (s.faults.find? (fun f => decide (f.op = op) && decide (f.key = key))).map Fault.err

/-- Go `s.Get(key)`. -/
def Storage.Get (s : Storage) (key : String) : Except String (Option StorageEntry) :=
  match s.fault .Get key with
  | some err => .error err
  | none => .ok ((s.entries.lookup key).map (fun v => ⟨key, v⟩))

/-- Go `s.Put(entry)`. -/
def Storage.Put (s : Storage) (entry : StorageEntry) : Except String Storage :=
  match s.fault .Put entry.Key with
  | some err => .error err
  | none =>
    .ok { s with entries := (entry.Key, entry.Value) :: s.entries.filter (fun e => e.1 != entry.Key) }

/-- Go `s.Delete(key)`. -/
def Storage.Delete (s : Storage) (key : String) : Except String Storage :=
  match s.fault .Delete key with
  | some err => .error err
  | none => .ok { s with entries := s.entries.filter (fun e => e.1 != key) }

/-! ## Requests and responses -/

/-- A dynamically typed value (`interface{}`) in a response data map or in internal metadata. -/
inductive Value where
  | str (s : String)
  | int (n : Int)
  | strs (l : List String)
deriving DecidableEq, Repr

/-- Go `logical.Alias`. -/
structure Alias where
  Name : String
deriving DecidableEq, Repr

/-- Go `logical.Auth`, with the embedded `logical.LeaseOptions` fields `TTL` and `Renewable`. -/
structure Auth where
  TTL : Int
  Renewable : Bool
  InternalData : List (String × Value)
  DisplayName : String
  Policies : List String
  Metadata : List (String × String)
  Alias : Option Alias
  Period : Int
  NumUses : Int
deriving DecidableEq, Repr

/-- Go `logical.Response`. -/
structure Response where
  Auth : Option Auth
  Data : List (String × Value)
  Warnings : List String
deriving DecidableEq, Repr

/-- Go `logical.ErrorResponse(text)`. -/
def logical.ErrorResponse (text : String) : Response := ⟨none, [("error", .str text)], []⟩

/-- Go `logical.Operation`. -/
inductive Operation where
  | CreateOperation
  | ReadOperation
  | UpdateOperation
  | DeleteOperation
  | ListOperation
  | RenewOperation
  | AliasLookaheadOperation
deriving DecidableEq, Repr

/-- Go `logical.Request`: the fields the handlers read. -/
structure Request where
  Operation : Operation
  Storage : Storage
  Auth : Option Auth
deriving DecidableEq, Repr

/-- Field data of the `login` path: a field is `none` when the request does not carry it. -/
structure LoginFieldData where
  role : Option String
  jwt : Option String
deriving DecidableEq, Repr

/-- Go `data.Get(k)` on a `TypeString` field: the value, or the zero value when absent. -/
def getString (raw : Option String) : String := raw.getD ""

/-- Field data of the `role/<name>` path: `GetOk` on a field is `some` exactly when the request
carries it. Durations are in seconds. -/
structure RoleFieldData where
  name : Option String
  policies : Option (List String)
  num_uses : Option Int
  ttl : Option Int
  max_ttl : Option Int
  period : Option Int
deriving DecidableEq, Repr

/-- Go `data.Get(k)` on a `TypeInt` or `TypeDurationSecond` field: the value, or the default
(zero for every field of the role path) when absent. -/
def getInt (raw : Option Int) : Int := raw.getD 0

/-! ## Collaborators -/

/-- Modelled from the spec: the backend configuration (`azureConfig`, declared outside the two
source files) exposes at minimum `Resource`, the expected audience. -/
structure azureConfig where
  Resource : String
deriving DecidableEq, Repr

/-- Go `oidc.Config`: the fields the login path sets or reads. `Now` is the value the injected
clock returns, `none` when no clock is injected. -/
structure oidc.Config where
  ClientID : String
  Now : Option Time
deriving DecidableEq, Repr

/-- The `nbf` member of a verified token's payload. -/
inductive NbfClaim where
  | absent
  | number (unix : Int)
  | malformed (err : String)
deriving DecidableEq, Repr

/-- Go `oidc.IDToken`: the subject and the part of the raw claims the login path decodes. -/
structure oidc.IDToken where
  Subject : String
  nbf : NbfClaim
deriving DecidableEq, Repr

/-- Modelled from the spec: `idToken.Claims(&claims)` with the `jsonTime` field `NotBefore`
(`jsonTime` is declared outside the two source files). An absent `nbf` leaves the zero value, a
numeric one is a Unix time in seconds, anything else is a decode error. -/
def oidc.IDToken.Claims (idToken : oidc.IDToken) : Except String Time :=
  match idToken.nbf with
  | .absent => .ok time.zero
  | .number unix => .ok (time.Unix unix)
  | .malformed err => .error err

/-- An `*oidc.IDTokenVerifier`, as its `Verify` method on a raw token. -/
abbrev Verifier := String → Except String oidc.IDToken

/-- Go `logical.SystemView`: the lease limits of the mount. -/
structure SystemView where
  DefaultLeaseTTL : Int
  MaxLeaseTTL : Int
deriving DecidableEq, Repr

/-- The backend (`azureAuthBackend`): its methods defined outside the two source files.
`getOIDCVerifier` is taken to leave the `oidc.Config` it is handed as it is. -/
structure azureAuthBackend where
  config : Storage → Except String (Option azureConfig)
  getOIDCVerifier : oidc.Config → azureConfig → Except String Verifier
  System : SystemView

/-- Go `framework.LeaseExtend(backendIncrement, backendMax, systemView)` applied to a request. -/
abbrev LeaseExtender := Int → Int → SystemView → Request → Option Response × Option String

/-- A call a login handler makes to a collaborator. -/
inductive Call where
  | config
  | role (name : String)
  | getOIDCVerifier
  | Verify (rawToken : String)
  | LeaseExtend
deriving DecidableEq, Repr

/-- What a login handler returns, and the collaborators it called on the way. -/
structure LoginOutcome where
  resp : Option Response
  err : Option String
  calls : List Call
deriving DecidableEq, Repr

/-- What a role handler returns, and the storage after the call. -/
structure RoleOutcome where
  resp : Option Response
  err : Option String
  storage : Storage
deriving DecidableEq, Repr

/-- A Go call either returns or aborts with a run-time panic. -/
inductive Run (α : Type) where
  | returned (a : α)
  | panicked (msg : String)
deriving DecidableEq, Repr

/-! ## The role store (`path_role.go`) -/

/-- Go `b.role(s, name)`: the role stored under the lower-cased name; `ok none` when absent. -/
def azureAuthBackend.role (_b : azureAuthBackend) (s : Storage) (name : String) :
    Except String (Option roleEntry) :=
  match s.Get ("role/" ++ strings.ToLower name) with
  | .error err => .error err
  | .ok none => .ok none
  | .ok (some raw) =>
    match json.Unmarshal raw.Value with
    | .error err => .error err
    | .ok role => .ok (some role)

/-- Go `b.pathRoleExistenceCheck`. -/
def azureAuthBackend.pathRoleExistenceCheck (b : azureAuthBackend) (req : Request)
    (data : RoleFieldData) : Except String Bool :=
  match b.role req.Storage (getString data.name) with
  | .error err => .error err
  | .ok role => .ok role.isSome

/-- Go `b.pathRoleRead`. -/
def azureAuthBackend.pathRoleRead (b : azureAuthBackend) (req : Request)
    (data : RoleFieldData) : RoleOutcome :=
  let roleName := getString data.name
  if roleName = "" then
    ⟨some (logical.ErrorResponse "missing name"), none, req.Storage⟩
  else
    match b.role req.Storage roleName with
    | .error err => ⟨none, some err, req.Storage⟩
    | .ok none => ⟨none, none, req.Storage⟩
    | .ok (some role) =>
      let role := { role with TTL := Int.tdiv role.TTL time.Second }
      let role := { role with MaxTTL := Int.tdiv role.MaxTTL time.Second }
      let role := { role with Period := Int.tdiv role.Period time.Second }
      let resp : Response :=
        ⟨none,
          [("max_ttl", .int role.MaxTTL), ("num_uses", .int role.NumUses),
            ("policies", .strs role.Policies), ("period", .int role.Period),
            ("ttl", .int role.TTL)],
          []⟩
      ⟨some resp, none, req.Storage⟩

/-- Go `b.pathRoleDelete`. -/
def azureAuthBackend.pathRoleDelete (_b : azureAuthBackend) (req : Request)
    (data : RoleFieldData) : RoleOutcome :=
  let roleName := getString data.name
  if roleName = "" then
    ⟨some (logical.ErrorResponse "role name required"), none, req.Storage⟩
  else
    match req.Storage.Delete ("role/" ++ strings.ToLower roleName) with
    | .error err => ⟨none, some err, req.Storage⟩
    | .ok storage => ⟨none, none, storage⟩

/-- The role entry `pathRoleCreateUpdate` works on (source lines 194-199): the stored role; a
zero-valued entry when there is none and the operation is a create; nothing, which is a fatal
error, when there is none and the operation is not a create. -/
def startingRole (found : Option roleEntry) (op : Operation) : Option roleEntry :=
  match found with
  | some role => some role
  | none => if op = .CreateOperation then some roleEntry.zero else none

/-- The text of the error response for a period above the maximum lease TTL (source line 212). -/
def periodMessage (period maxLeaseTTL : Int) : String :=
  "'period' of '" ++ fmt.q (fmt.v period) ++
    "' is greater than the backend's maximum lease TTL of '" ++ fmt.q (fmt.v maxLeaseTTL) ++ "'"

/-- The warning attached when `max_ttl` exceeds the maximum lease TTL (source line 246). -/
def maxTTLWarning : String :=
  "max_ttl is greater than the system or backend mount's maximum TTL value; issued tokens' max TTL value will be truncated"

/-- One integer request field applied to a role field, the statement pattern of source lines
205-210, 215-219, 224-228 and 230-234: when `GetOk` finds the field, the role field is set from
the supplied value; when it does not and the operation is a create, from `data.Get`, the field
default; otherwise the role field keeps its value. `convert` is the conversion applied to the
`int` (`time.Second * time.Duration(...)` for the durations, none for `num_uses`). -/
def applyField (op : Operation) (raw : Option Int) (convert : Int → Int) (old : Int) : Int :=
  match raw with
  | some v => convert v
  | none => if op = .CreateOperation then convert (getInt raw) else old

/-- Go `b.pathRoleCreateUpdate`. `ParsePolicies` is `policyutil.ParsePolicies`. -/
def azureAuthBackend.pathRoleCreateUpdate (b : azureAuthBackend)
    (ParsePolicies : List String → List String) (req : Request) (data : RoleFieldData) :
    RoleOutcome :=
  let roleName := getString data.name
  if roleName = "" then
    ⟨some (logical.ErrorResponse "missing role name"), none, req.Storage⟩
  else
    match b.role req.Storage roleName with
    | .error err => ⟨none, some err, req.Storage⟩
    | .ok found =>
      match startingRole found req.Operation with
      | none => ⟨none, some "role entry not found during update operation", req.Storage⟩
      | some role =>
        let role : roleEntry :=
          match data.policies with
          | some policiesRaw => { role with Policies := ParsePolicies policiesRaw }
          | none => role
        let role : roleEntry :=
          { role with
            Period := applyField req.Operation data.period secondsToDuration role.Period }
        if role.Period > b.System.MaxLeaseTTL then
          ⟨some (logical.ErrorResponse (periodMessage role.Period b.System.MaxLeaseTTL)), none,
            req.Storage⟩
        else
          let role : roleEntry :=
            { role with NumUses := applyField req.Operation data.num_uses id role.NumUses }
          if role.NumUses < 0 then
            ⟨some (logical.ErrorResponse "num_uses cannot be negative"), none, req.Storage⟩
          else
            let role : roleEntry :=
              { role with TTL := applyField req.Operation data.ttl secondsToDuration role.TTL }
            let role : roleEntry :=
              { role with
                MaxTTL := applyField req.Operation data.max_ttl secondsToDuration role.MaxTTL }
            if role.MaxTTL > 0 ∧ role.TTL > role.MaxTTL then
              ⟨some (logical.ErrorResponse "ttl should not be greater than max_ttl"), none,
                req.Storage⟩
            else
              let resp : Option Response :=
                if role.MaxTTL > b.System.MaxLeaseTTL then some ⟨none, [], [maxTTLWarning]⟩
                else none
              match logical.StorageEntryJSON ("role/" ++ strings.ToLower roleName) role with
              | .error err => ⟨none, some err, req.Storage⟩
              | .ok none =>
                ⟨none, some ("failed to create storage entry for role " ++ roleName),
                  req.Storage⟩
              | .ok (some entry) =>
                match req.Storage.Put entry with
                | .error err => ⟨none, some err, req.Storage⟩
                | .ok storage => ⟨resp, none, storage⟩

/-- The role entry after all field applications of `pathRoleCreateUpdate` (source lines
201-234), leaving the validation between them aside. It is what the handler stores when it
accepts the request (`pathRoleCreateUpdate_accepted`). -/
def applyFields (ParsePolicies : List String → List String) (op : Operation)
    (data : RoleFieldData) (role : roleEntry) : roleEntry :=
  { Policies :=
      match data.policies with
      | some policiesRaw => ParsePolicies policiesRaw
      | none => role.Policies
    NumUses := applyField op data.num_uses id role.NumUses
    TTL := applyField op data.ttl secondsToDuration role.TTL
    MaxTTL := applyField op data.max_ttl secondsToDuration role.MaxTTL
    Period := applyField op data.period secondsToDuration role.Period }

/-! ## Login and renewal (`path_login.go`) -/

/-- Go `verifyClaims(config, idToken)`; `wallClock` is what `time.Now()` returns. The result is
the error, `none` for nil. -/
def verifyClaims (config : oidc.Config) (wallClock : Time) (idToken : oidc.IDToken) :
    Option String :=
  match idToken.Claims with
  | .error err => some err
  | .ok claimsNotBefore =>
    let now :=
      match config.Now with
      | some injected => injected
      | none => wallClock
    let notBefore := claimsNotBefore
    if time.After notBefore now then
      some ("token is not yet valid (Token Not Before: " ++ fmt.v notBefore ++ ")")
    else none

/-- Go `b.pathLogin`; `wallClock` is what `time.Now()` returns. -/
def azureAuthBackend.pathLogin (b : azureAuthBackend) (wallClock : Time) (req : Request)
    (data : LoginFieldData) : LoginOutcome :=
  let signedJwt := getString data.jwt
  if signedJwt = "" then
    ⟨some (logical.ErrorResponse "jwt is required"), none, []⟩
  else
    let roleName := getString data.role
    if roleName = "" then
      ⟨some (logical.ErrorResponse "role is required"), none, []⟩
    else
      match b.config req.Storage with
      | .error err =>
        ⟨none, some ("unable to retrieve backend configuration: " ++ err), [.config]⟩
      | .ok none => ⟨some (logical.ErrorResponse "backend not configured"), none, [.config]⟩
      | .ok (some config) =>
        match b.role req.Storage roleName with
        | .error err => ⟨none, some err, [.config, .role roleName]⟩
        | .ok none =>
          ⟨some (logical.ErrorResponse ("invalid role name " ++ fmt.q roleName)), none,
            [.config, .role roleName]⟩
        | .ok (some role) =>
          let verifierConfig : oidc.Config := ⟨config.Resource, none⟩
          match b.getOIDCVerifier verifierConfig config with
          | .error err => ⟨none, some err, [.config, .role roleName, .getOIDCVerifier]⟩
          | .ok verifier =>
            match verifier signedJwt with
            | .error err =>
              ⟨none, some err, [.config, .role roleName, .getOIDCVerifier, .Verify signedJwt]⟩
            | .ok idToken =>
              match verifyClaims verifierConfig wallClock idToken with
              | some err =>
                ⟨none, some err, [.config, .role roleName, .getOIDCVerifier, .Verify signedJwt]⟩
              | none =>
                let resp : Response :=
                  ⟨some
                    { Policies := role.Policies
                      DisplayName := idToken.Subject
                      Period := role.Period
                      NumUses := role.NumUses
                      Alias := some ⟨idToken.Subject⟩
                      InternalData := [("role", .str roleName)]
                      Metadata := [("role", roleName)]
                      Renewable := true
                      TTL := role.TTL },
                    [], []⟩
                ⟨some resp, none, [.config, .role roleName, .getOIDCVerifier, .Verify signedJwt]⟩

/-- Go `b.pathLoginRenew`; `LeaseExtend` is `framework.LeaseExtend`. Reading `req.Auth` through a
nil pointer and the unchecked type assertion `.(string)` abort with a run-time panic. -/
def azureAuthBackend.pathLoginRenew (b : azureAuthBackend) (LeaseExtend : LeaseExtender)
    (req : Request) : Run LoginOutcome :=
  match req.Auth with
  | none => .panicked "invalid memory address or nil pointer dereference"
  | some auth =>
    match auth.InternalData.lookup "role" with
    | none => .panicked "interface conversion: interface is nil, not string"
    | some (.int _) => .panicked "interface conversion: interface is int, not string"
    | some (.strs _) => .panicked "interface conversion: interface is []string, not string"
    | some (.str roleName) =>
      if roleName = "" then
        .returned ⟨none, some "failed to fetch role_name during renewal", []⟩
      else
        match b.role req.Storage roleName with
        | .error err =>
          .returned
            ⟨none, some ("failed to validate role " ++ roleName ++ " during renewal:" ++ err),
              [.role roleName]⟩
        | .ok none =>
          .returned
            ⟨none, some ("role " ++ roleName ++ " does not exist during renewal"),
              [.role roleName]⟩
        | .ok (some role) =>
          if role.Period > 0 then
            .returned ⟨some ⟨some { auth with TTL := role.Period }, [], []⟩, none, [.role roleName]⟩
          else
            let out := LeaseExtend role.TTL role.MaxTTL b.System req
            .returned ⟨out.1, out.2, [.role roleName, .LeaseExtend]⟩

/-! ## Outcomes of role writes, store invariant, sequences of role calls -/

/-- Go `resp.IsError()`: the data map has exactly one member, and it is `error`. -/
def Response.IsError (r : Response) : Bool :=
  r.Data.length == 1 && (r.Data.lookup "error").isSome

/-- A role write is rejected when the handler returns a non-nil error (a fatal error) or an
error response (a soft error). -/
def RoleOutcome.rejected (out : RoleOutcome) : Bool :=
  out.err.isSome ||
    match out.resp with
    | some r => r.IsError
    | none => false

/-- A role write is accepted when it is not rejected. -/
def RoleOutcome.accepted (out : RoleOutcome) : Bool := !out.rejected

/-- The invariant of a stored role as the spec words it: `maxTTL == 0 || ttl <= maxTTL`,
`period <= maxLeaseTTL`, `numUses >= 0`. -/
def specInvariant (maxLeaseTTL : Int) (r : roleEntry) : Prop :=
  (r.MaxTTL = 0 ∨ r.TTL ≤ r.MaxTTL) ∧ r.Period ≤ maxLeaseTTL ∧ 0 ≤ r.NumUses

/-- The invariant `pathRoleCreateUpdate` enforces when it writes (source lines 211, 220, 239):
the three guards that reject are all false. -/
def writeInvariant (maxLeaseTTL : Int) (r : roleEntry) : Prop :=
  (r.MaxTTL ≤ 0 ∨ r.TTL ≤ r.MaxTTL) ∧ r.Period ≤ maxLeaseTTL ∧ 0 ≤ r.NumUses

/-- Every entry of the store is a role entry that satisfies the write invariant. -/
def storeInvariant (maxLeaseTTL : Int) (s : Storage) : Prop :=
  ∀ e ∈ s.entries, ∃ r, e.2 = .roleJSON r ∧ writeInvariant maxLeaseTTL r

/-- A call on the role management surface that can change the store. -/
inductive RoleCall where
  | createUpdate (op : Operation) (data : RoleFieldData)
  | delete (data : RoleFieldData)
deriving DecidableEq, Repr

/-- The store after one role call on store `s`. -/
def applyRoleCall (b : azureAuthBackend) (ParsePolicies : List String → List String)
    (s : Storage) : RoleCall → Storage
  | .createUpdate op data => (b.pathRoleCreateUpdate ParsePolicies ⟨op, s, none⟩ data).storage
  | .delete data => (b.pathRoleDelete ⟨.DeleteOperation, s, none⟩ data).storage

/-- The store after a sequence of role calls, each on the store the previous one left. -/
def runRoleCalls (b : azureAuthBackend) (ParsePolicies : List String → List String)
    (s : Storage) (calls : List RoleCall) : Storage :=
  calls.foldl (applyRoleCall b ParsePolicies) s

/-- The data map `pathRoleRead` returns for a role with the given fields, durations in seconds. -/
def readData (policies : List String) (numUses ttl maxTTL period : Int) :
    List (String × Value) :=
  [("max_ttl", .int maxTTL), ("num_uses", .int numUses), ("policies", .strs policies),
    ("period", .int period), ("ttl", .int ttl)]

/-! ## Example data -/

/-- A verifier in the manner of the test suite's mock: it accepts two fixed tokens for subject
`alice`, one without `nbf` and one whose `nbf` is the Unix time 2000000000, and rejects the rest. -/
def demoVerifier : Verifier := fun rawToken =>
  if rawToken = "h.good.s" then .ok ⟨"alice", .absent⟩
  else if rawToken = "h.early.s" then .ok ⟨"alice", .number 2000000000⟩
  else .error "invalid jwt"

/-- A configured backend with a maximum lease TTL of 32 days. -/
def demoBackend : azureAuthBackend :=
  ⟨fun _ => .ok (some ⟨"https://vault.example"⟩), fun _ _ => .ok demoVerifier,
    ⟨2764800000000000, 2764800000000000⟩⟩

/-- A backend that has not been configured yet. -/
def unconfiguredBackend : azureAuthBackend :=
  ⟨fun _ => .ok none, fun _ _ => .ok demoVerifier, ⟨2764800000000000, 2764800000000000⟩⟩

/-- The role of the spec's scenario: policies `default`, ttl 3600s, max_ttl 7200s, no period. -/
def demoRole : roleEntry := ⟨["default"], 0, 3600000000000, 7200000000000, 0⟩

/-- A role with a period of 600s. -/
def periodicRole : roleEntry := ⟨["default"], 0, 3600000000000, 7200000000000, 600000000000⟩

/-- A store holding `demoRole` as `dev` and `periodicRole` as `batch`, with no failing operation. -/
def demoStorage : Storage :=
  ⟨[("role/dev", .roleJSON demoRole), ("role/batch", .roleJSON periodicRole)], []⟩

/-- A wall-clock reading: Unix time 1700000000. -/
def demoNow : Time := 1700000000000000000

/-- A lease-extension helper that grants the requested increment unchanged. -/
def demoLeaseExtend : LeaseExtender := fun ttl _ _ req =>
  (some ⟨req.Auth.map (fun a => { a with TTL := ttl }), [], []⟩, none)

/-- The authentication result a login as `alice` under role `batch` hands to the caller. -/
def demoAuth : Auth :=
  ⟨3600000000000, true, [("role", .str "batch")], "alice", ["default"], [("role", "batch")],
    some ⟨"alice"⟩, 600000000000, 0⟩

/-! ## Login: not-before, verifier failures, input validation -/

/-- C1: a login that passes input validation, config load, role resolution and token
verification, and whose verified token has an `nbf` strictly after the current time, returns a
fatal error (nil response, the not-yet-valid error) for whatever verifier accepted the token; and
`verifyClaims` returns an error whenever `notBefore.After(now())`, with or without an injected
clock. -/
theorem C1_login_future_nbf_is_fatal (b : azureAuthBackend) (wallClock : Time) (req : Request)
    (data : LoginFieldData) (config : azureConfig) (role : roleEntry) (verifier : Verifier)
    (idToken : oidc.IDToken) (notBefore : Time)
    (hjwt : getString data.jwt ≠ "") (hname : getString data.role ≠ "")
    (hconfig : b.config req.Storage = .ok (some config))
    (hrole : b.role req.Storage (getString data.role) = .ok (some role))
    (hverifier : b.getOIDCVerifier ⟨config.Resource, none⟩ config = .ok verifier)
    (hverify : verifier (getString data.jwt) = .ok idToken)
    (hclaims : idToken.Claims = .ok notBefore)
    (hnbf : wallClock < notBefore) :
    (b.pathLogin wallClock req data).resp = none ∧
      (b.pathLogin wallClock req data).err =
        some ("token is not yet valid (Token Not Before: " ++ fmt.v notBefore ++ ")") ∧
      ∀ (cfg : oidc.Config) (clock : Time) (tok : oidc.IDToken) (nb : Time),
        tok.Claims = .ok nb → time.After nb (cfg.Now.getD clock) = true →
          verifyClaims cfg clock tok =
            some ("token is not yet valid (Token Not Before: " ++ fmt.v nb ++ ")") := by
  have hafter : time.After notBefore wallClock = true := by simp [time.After, hnbf]
  refine ⟨?_, ?_, ?_⟩
  · simp [azureAuthBackend.pathLogin, hjwt, hname, hconfig, hrole, hverifier, hverify,
      verifyClaims, hclaims, hafter]
  · simp [azureAuthBackend.pathLogin, hjwt, hname, hconfig, hrole, hverifier, hverify,
      verifyClaims, hclaims, hafter]
  · intro cfg clock tok nb hc ha
    cases hn : cfg.Now <;> simp [hn] at ha <;> simp [verifyClaims, hc, hn, ha]

/-- Witness of C1: the demo login as role `dev` with the token whose `nbf` is Unix time
2000000000, at wall-clock time 1700000000. -/
theorem C1_login_future_nbf_is_fatal_witness :
    (demoBackend.pathLogin demoNow ⟨.UpdateOperation, demoStorage, none⟩
        ⟨some "dev", some "h.early.s"⟩).resp = none ∧
      (demoBackend.pathLogin demoNow ⟨.UpdateOperation, demoStorage, none⟩
        ⟨some "dev", some "h.early.s"⟩).err =
        some "token is not yet valid (Token Not Before: 2000000000000000000)" :=
  have h := C1_login_future_nbf_is_fatal demoBackend demoNow ⟨.UpdateOperation, demoStorage, none⟩
    ⟨some "dev", some "h.early.s"⟩ ⟨"https://vault.example"⟩ demoRole demoVerifier
    ⟨"alice", .number 2000000000⟩ 2000000000000000000
    (by decide) (by decide) rfl rfl rfl rfl rfl (by decide)
  ⟨h.1, h.2.1⟩

/-- C2: when the token verifier is reached and returns an error, `pathLogin` returns that error
as a fatal error with a nil response, not a soft error response; and `pathLogin` returns a
response carrying an authentication result only if the backend config exists, the role exists,
the verifier accepted the token and the not-before check passed. -/
theorem C2_login_verifier_error_is_fatal (b : azureAuthBackend) (wallClock : Time)
    (req : Request) (data : LoginFieldData) :
    (∀ (config : azureConfig) (role : roleEntry) (verifier : Verifier) (err : String),
        getString data.jwt ≠ "" → getString data.role ≠ "" →
        b.config req.Storage = .ok (some config) →
        b.role req.Storage (getString data.role) = .ok (some role) →
        b.getOIDCVerifier ⟨config.Resource, none⟩ config = .ok verifier →
        verifier (getString data.jwt) = .error err →
          (b.pathLogin wallClock req data).resp = none ∧
            (b.pathLogin wallClock req data).err = some err) ∧
      (∀ (resp : Response) (auth : Auth),
        (b.pathLogin wallClock req data).resp = some resp → resp.Auth = some auth →
          ∃ (config : azureConfig) (role : roleEntry) (verifier : Verifier)
              (idToken : oidc.IDToken),
            b.config req.Storage = .ok (some config) ∧
              b.role req.Storage (getString data.role) = .ok (some role) ∧
              b.getOIDCVerifier ⟨config.Resource, none⟩ config = .ok verifier ∧
              verifier (getString data.jwt) = .ok idToken ∧
              verifyClaims ⟨config.Resource, none⟩ wallClock idToken = none) := by
  constructor
  · intro config role verifier err hjwt hname hconfig hrole hverifier hverify
    simp [azureAuthBackend.pathLogin, hjwt, hname, hconfig, hrole, hverifier, hverify]
  · intro resp auth hresp hauth
    unfold azureAuthBackend.pathLogin at hresp
    by_cases hjwt : getString data.jwt = ""
    · simp [hjwt] at hresp
      subst hresp
      simp [logical.ErrorResponse] at hauth
    by_cases hname : getString data.role = ""
    · simp [hjwt, hname] at hresp
      subst hresp
      simp [logical.ErrorResponse] at hauth
    simp only [hjwt, hname, if_false] at hresp
    cases hconfig : b.config req.Storage with
    | error e => simp [hconfig] at hresp
    | ok oc =>
      cases oc with
      | none =>
        simp [hconfig] at hresp
        subst hresp
        simp [logical.ErrorResponse] at hauth
      | some config =>
        cases hrole : b.role req.Storage (getString data.role) with
        | error e => simp [hconfig, hrole] at hresp
        | ok orole =>
          cases orole with
          | none =>
            simp [hconfig, hrole] at hresp
            subst hresp
            simp [logical.ErrorResponse] at hauth
          | some role =>
            cases hverifier : b.getOIDCVerifier ⟨config.Resource, none⟩ config with
            | error e => simp [hconfig, hrole, hverifier] at hresp
            | ok verifier =>
              cases hverify : verifier (getString data.jwt) with
              | error e => simp [hconfig, hrole, hverifier, hverify] at hresp
              | ok idToken =>
                cases hclaims : verifyClaims ⟨config.Resource, none⟩ wallClock idToken with
                | some e => simp [hconfig, hrole, hverifier, hverify, hclaims] at hresp
                | none => exact ⟨config, role, verifier, idToken, rfl, rfl, hverifier, hverify, hclaims⟩

/-- Witness of C2: the demo verifier rejects the token `forged`, and the login is fatal; the
login with the accepted token returns an authentication result, and config, role, verifier and
not-before check are as stated. -/
theorem C2_login_verifier_error_is_fatal_witness :
    ((demoBackend.pathLogin demoNow ⟨.UpdateOperation, demoStorage, none⟩
          ⟨some "dev", some "forged"⟩).resp = none ∧
        (demoBackend.pathLogin demoNow ⟨.UpdateOperation, demoStorage, none⟩
          ⟨some "dev", some "forged"⟩).err = some "invalid jwt") ∧
      ∃ (config : azureConfig) (role : roleEntry) (verifier : Verifier) (idToken : oidc.IDToken),
        demoBackend.config demoStorage = .ok (some config) ∧
          demoBackend.role demoStorage "dev" = .ok (some role) ∧
          demoBackend.getOIDCVerifier ⟨config.Resource, none⟩ config = .ok verifier ∧
          verifier "h.good.s" = .ok idToken ∧
          verifyClaims ⟨config.Resource, none⟩ demoNow idToken = none :=
  ⟨(C2_login_verifier_error_is_fatal demoBackend demoNow ⟨.UpdateOperation, demoStorage, none⟩
      ⟨some "dev", some "forged"⟩).1 ⟨"https://vault.example"⟩ demoRole demoVerifier
      "invalid jwt" (by decide) (by decide) rfl rfl rfl rfl,
    (C2_login_verifier_error_is_fatal demoBackend demoNow ⟨.UpdateOperation, demoStorage, none⟩
      ⟨some "dev", some "h.good.s"⟩).2
      ⟨some ⟨3600000000000, true, [("role", .str "dev")], "alice", ["default"],
        [("role", "dev")], some ⟨"alice"⟩, 0, 0⟩, [], []⟩
      ⟨3600000000000, true, [("role", .str "dev")], "alice", ["default"], [("role", "dev")],
        some ⟨"alice"⟩, 0, 0⟩ rfl rfl⟩

/-- C3: a login whose `jwt` field is the empty string, or whose `role` field is, gets the soft
error response `jwt is required` (checked first) or `role is required` with a nil error, and no
collaborator (backend config, role store, verifier) has been called: the call trace is empty and
the outcome is the same for every backend, clock and request storage. -/
theorem C3_login_empty_field_is_soft (b : azureAuthBackend) (wallClock : Time) (req : Request)
    (data : LoginFieldData) (hempty : getString data.jwt = "" ∨ getString data.role = "") :
    b.pathLogin wallClock req data =
        ⟨some (logical.ErrorResponse
            (if getString data.jwt = "" then "jwt is required" else "role is required")),
          none, []⟩ ∧
      ∀ (other : azureAuthBackend) (clock : Time) (otherReq : Request),
        other.pathLogin clock otherReq data = b.pathLogin wallClock req data := by
  by_cases hjwt : getString data.jwt = ""
  · simp [azureAuthBackend.pathLogin, hjwt]
  · have hname : getString data.role = "" := hempty.resolve_left hjwt
    simp [azureAuthBackend.pathLogin, hjwt, hname]

/-- Witness of C3: a login with a token but an empty role name. -/
theorem C3_login_empty_field_is_soft_witness :
    demoBackend.pathLogin demoNow ⟨.UpdateOperation, demoStorage, none⟩
        ⟨some "", some "h.good.s"⟩ =
      ⟨some (logical.ErrorResponse "role is required"), none, []⟩ :=
  (C3_login_empty_field_is_soft demoBackend demoNow ⟨.UpdateOperation, demoStorage, none⟩
    ⟨some "", some "h.good.s"⟩ (Or.inr rfl)).1

/-- Counterexample to C4 as stated: a login with a token and the role name `ghost`, which is not
in the role store, on a backend that has not been configured gets the soft error
`backend not configured`, not `invalid role name`. -/
theorem C4_unknown_role_unconfigured_backend :
    unconfiguredBackend.role demoStorage "ghost" = .ok none ∧
      unconfiguredBackend.pathLogin demoNow ⟨.UpdateOperation, demoStorage, none⟩
          ⟨some "ghost", some "h.good.s"⟩ =
        ⟨some (logical.ErrorResponse "backend not configured"), none, [.config]⟩ ∧
      unconfiguredBackend.pathLogin demoNow ⟨.UpdateOperation, demoStorage, none⟩
          ⟨some "ghost", some "h.good.s"⟩ ≠
        ⟨some (logical.ErrorResponse ("invalid role name " ++ fmt.q "ghost")), none,
          [.config, .role "ghost"]⟩ := by
  refine ⟨rfl, rfl, ?_⟩
  decide

/-- C4, amended: a login with a non-empty `jwt` and role name, on a configured backend, whose
role name is not in the role store gets the soft error response `invalid role name` with a nil
error, having called only the config loader and the role store; and whenever the role is not in
the store, whatever else holds, neither the verifier nor its constructor is called: they are not
in the call trace, and the outcome is the same whatever verifier the backend would supply. -/
theorem C4_login_unknown_role_is_soft (b : azureAuthBackend) (wallClock : Time) (req : Request)
    (data : LoginFieldData)
    (habsent : b.role req.Storage (getString data.role) = .ok none) :
    (∀ config : azureConfig, getString data.jwt ≠ "" → getString data.role ≠ "" →
        b.config req.Storage = .ok (some config) →
        b.pathLogin wallClock req data =
          ⟨some (logical.ErrorResponse ("invalid role name " ++ fmt.q (getString data.role))),
            none, [.config, .role (getString data.role)]⟩) ∧
      Call.getOIDCVerifier ∉ (b.pathLogin wallClock req data).calls ∧
      (∀ rawToken : String, Call.Verify rawToken ∉ (b.pathLogin wallClock req data).calls) ∧
      ∀ supply : oidc.Config → azureConfig → Except String Verifier,
        azureAuthBackend.pathLogin ⟨b.config, supply, b.System⟩ wallClock req data =
          b.pathLogin wallClock req data := by
  have habsent2 : ∀ supply : oidc.Config → azureConfig → Except String Verifier,
      azureAuthBackend.role ⟨b.config, supply, b.System⟩ req.Storage (getString data.role) =
        .ok none := fun _ => habsent
  refine ⟨?_, ?_, ?_, ?_⟩
  · intro config hjwt hname hconfig
    simp [azureAuthBackend.pathLogin, hjwt, hname, hconfig, habsent]
  · unfold azureAuthBackend.pathLogin
    by_cases hjwt : getString data.jwt = "" <;> simp [hjwt]
    by_cases hname : getString data.role = "" <;> simp [hname]
    rcases hconfig : b.config req.Storage with e | _ | config <;> simp [habsent]
  · intro rawToken
    unfold azureAuthBackend.pathLogin
    by_cases hjwt : getString data.jwt = "" <;> simp [hjwt]
    by_cases hname : getString data.role = "" <;> simp [hname]
    rcases hconfig : b.config req.Storage with e | _ | config <;> simp [habsent]
  · intro supply
    unfold azureAuthBackend.pathLogin
    by_cases hjwt : getString data.jwt = "" <;> simp [hjwt]
    by_cases hname : getString data.role = "" <;> simp [hname]
    rcases hconfig : b.config req.Storage with e | _ | config <;>
      simp [habsent, habsent2 supply]

/-- Witness of C4: the demo login with role name `ghost`. -/
theorem C4_login_unknown_role_is_soft_witness :
    demoBackend.pathLogin demoNow ⟨.UpdateOperation, demoStorage, none⟩
        ⟨some "ghost", some "h.good.s"⟩ =
      ⟨some (logical.ErrorResponse ("invalid role name " ++ fmt.q "ghost")), none,
        [.config, .role "ghost"]⟩ :=
  (C4_login_unknown_role_is_soft demoBackend demoNow ⟨.UpdateOperation, demoStorage, none⟩
    ⟨some "ghost", some "h.good.s"⟩ rfl).1 ⟨"https://vault.example"⟩ (by decide) (by decide) rfl

/-- C5: a successful login (role `role` stored under the requested name, token verified with
subject `idToken.Subject`, `nbf` not in the future) returns, with a nil error, the
authentication result with the role's policies, period, number of uses and TTL, the subject as
display name and alias name, the requested role name as internal metadata, and a renewable
lease. -/
theorem C5_login_success_result (b : azureAuthBackend) (wallClock : Time) (req : Request)
    (data : LoginFieldData) (config : azureConfig) (role : roleEntry) (verifier : Verifier)
    (idToken : oidc.IDToken) (notBefore : Time)
    (hjwt : getString data.jwt ≠ "") (hname : getString data.role ≠ "")
    (hconfig : b.config req.Storage = .ok (some config))
    (hrole : b.role req.Storage (getString data.role) = .ok (some role))
    (hverifier : b.getOIDCVerifier ⟨config.Resource, none⟩ config = .ok verifier)
    (hverify : verifier (getString data.jwt) = .ok idToken)
    (hclaims : idToken.Claims = .ok notBefore)
    (hnbf : notBefore ≤ wallClock) :
    ∃ auth : Auth,
      (b.pathLogin wallClock req data).resp = some ⟨some auth, [], []⟩ ∧
        (b.pathLogin wallClock req data).err = none ∧
        auth.Policies = role.Policies ∧ auth.DisplayName = idToken.Subject ∧
        auth.Alias = some ⟨idToken.Subject⟩ ∧ auth.Period = role.Period ∧
        auth.NumUses = role.NumUses ∧
        auth.InternalData = [("role", .str (getString data.role))] ∧
        auth.Renewable = true ∧ auth.TTL = role.TTL := by
  have hafter : time.After notBefore wallClock = false := by
    simp [time.After, not_lt.mpr hnbf]
  refine ⟨⟨role.TTL, true, [("role", .str (getString data.role))], idToken.Subject,
    role.Policies, [("role", getString data.role)], some ⟨idToken.Subject⟩, role.Period,
    role.NumUses⟩, ?_, ?_, rfl, rfl, rfl, rfl, rfl, rfl, rfl, rfl⟩
  · simp [azureAuthBackend.pathLogin, hjwt, hname, hconfig, hrole, hverifier, hverify,
      verifyClaims, hclaims, hafter]
  · simp [azureAuthBackend.pathLogin, hjwt, hname, hconfig, hrole, hverifier, hverify,
      verifyClaims, hclaims, hafter]

/-- Witness of C5, the spec's scenario: role `dev` with policies `default`, ttl 3600s,
max_ttl 7200s and no period, and a token without `nbf`, give policies `default`, a TTL of 3600s
and a renewable lease. -/
theorem C5_login_success_result_witness :
    ∃ auth : Auth,
      (demoBackend.pathLogin demoNow ⟨.UpdateOperation, demoStorage, none⟩
          ⟨some "dev", some "h.good.s"⟩).resp = some ⟨some auth, [], []⟩ ∧
        auth.Policies = ["default"] ∧ auth.TTL = 3600 * time.Second ∧ auth.Renewable = true :=
  have ⟨auth, h⟩ := C5_login_success_result demoBackend demoNow
    ⟨.UpdateOperation, demoStorage, none⟩ ⟨some "dev", some "h.good.s"⟩
    ⟨"https://vault.example"⟩ demoRole demoVerifier ⟨"alice", .absent⟩ time.zero
    (by decide) (by decide) rfl rfl rfl rfl rfl (by decide)
  ⟨auth, h.1, h.2.2.1, h.2.2.2.2.2.2.2.2.2, h.2.2.2.2.2.2.2.2.1⟩

/-! ## Renewal -/

/-- After the entries under `key` are filtered out, a lookup of `key` finds nothing. -/
theorem lookup_filter_ne_self (key : String) (l : List (String × Bytes)) :
    (l.filter (fun e => e.1 != key)).lookup key = none := by
  induction l with
  | nil => rfl
  | cons e rest ih =>
    obtain ⟨k, v⟩ := e
    rw [List.filter_cons]
    split
    · rename_i h
      have hk : (key == k) = false := by
        simp only [bne_iff_ne, ne_eq] at h
        simpa using fun h2 : key = k => h h2.symm
      simpa [List.lookup, hk] using ih
    · exact ih

/-- After a successful `Delete` of `key`, a `Get` of `key` fails or finds nothing. -/
theorem Storage.Get_after_Delete (s s2 : Storage) (key : String)
    (hdel : s.Delete key = .ok s2) :
    s2.Get key = .ok none ∨ ∃ err, s2.Get key = .error err := by
  unfold Storage.Delete at hdel
  cases hf : s.fault .Delete key with
  | some e => simp [hf] at hdel
  | none =>
    simp only [hf, Except.ok.injEq] at hdel
    subst hdel
    unfold Storage.Get
    cases hg : Storage.fault ⟨s.entries.filter (fun e => e.1 != key), s.faults⟩ .Get key with
    | some e => exact Or.inr ⟨e, rfl⟩
    | none => exact Or.inl (by simp [lookup_filter_ne_self])

/-- C6: a renewal whose internal metadata pins a role that currently has period `P > 0` returns
the request's authentication result with TTL exactly `P`, whatever TTL it carried, whatever the
role's ttl and max_ttl are and whatever the lease-extension helper would do, without calling
that helper; and renewing again with the returned authentication result returns TTL `P`
again. -/
theorem C6_renew_periodic_role (b : azureAuthBackend) (LeaseExtend : LeaseExtender)
    (req : Request) (auth : Auth) (roleName : String) (role : roleEntry)
    (hauth : req.Auth = some auth)
    (hpin : auth.InternalData.lookup "role" = some (.str roleName)) (hname : roleName ≠ "")
    (hrole : b.role req.Storage roleName = .ok (some role)) (hperiod : role.Period > 0) :
    b.pathLoginRenew LeaseExtend req =
        .returned ⟨some ⟨some { auth with TTL := role.Period }, [], []⟩, none, [.role roleName]⟩ ∧
      b.pathLoginRenew LeaseExtend { req with Auth := some { auth with TTL := role.Period } } =
        .returned ⟨some ⟨some { auth with TTL := role.Period }, [], []⟩, none, [.role roleName]⟩ ∧
      ∀ other : LeaseExtender, b.pathLoginRenew other req = b.pathLoginRenew LeaseExtend req := by
  refine ⟨?_, ?_, ?_⟩
  · simp [azureAuthBackend.pathLoginRenew, hauth, hpin, hname, hrole, hperiod]
  · simp [azureAuthBackend.pathLoginRenew, hpin, hname, hrole, hperiod]
  · intro other
    simp [azureAuthBackend.pathLoginRenew, hauth, hpin, hname, hrole, hperiod]

/-- Witness of C6, the spec's scenario: role `batch` has a period of 600s; a renewal of a lease
that carried a TTL of 3600s returns a TTL of 600s, and so does the renewal after it. -/
theorem C6_renew_periodic_role_witness :
    demoBackend.pathLoginRenew demoLeaseExtend ⟨.RenewOperation, demoStorage, some demoAuth⟩ =
        .returned
          ⟨some ⟨some { demoAuth with TTL := 600 * time.Second }, [], []⟩, none,
            [.role "batch"]⟩ ∧
      demoBackend.pathLoginRenew demoLeaseExtend
          ⟨.RenewOperation, demoStorage, some { demoAuth with TTL := 600 * time.Second }⟩ =
        .returned
          ⟨some ⟨some { demoAuth with TTL := 600 * time.Second }, [], []⟩, none,
            [.role "batch"]⟩ :=
  have h := C6_renew_periodic_role demoBackend demoLeaseExtend
    ⟨.RenewOperation, demoStorage, some demoAuth⟩ demoAuth "batch" periodicRole rfl rfl
    (by decide) rfl (by decide)
  ⟨h.1, h.2.1⟩

/-- C7: after `pathRoleDelete` of role `n` has succeeded (nil response, nil error), a renewal on
the resulting store whose internal metadata pins role `n` returns a fatal error: a nil response,
a non-nil error, and the lease-extension helper is not called. -/
theorem C7_renew_after_delete_is_fatal (b : azureAuthBackend) (LeaseExtend : LeaseExtender)
    (deleteReq : Request) (data : RoleFieldData) (n : String) (after : Storage)
    (renewReq : Request) (auth : Auth)
    (hn : getString data.name = n)
    (hdel : b.pathRoleDelete deleteReq data = ⟨none, none, after⟩)
    (hstore : renewReq.Storage = after) (hauth : renewReq.Auth = some auth)
    (hpin : auth.InternalData.lookup "role" = some (.str n)) :
    ∃ (err : String) (calls : List Call),
      b.pathLoginRenew LeaseExtend renewReq = .returned ⟨none, some err, calls⟩ ∧
        Call.LeaseExtend ∉ calls := by
  subst hn
  by_cases hname : getString data.name = ""
  · exact ⟨"failed to fetch role_name during renewal", [],
      by simp [azureAuthBackend.pathLoginRenew, hauth, hpin, hname], by simp⟩
  · have hdelete : deleteReq.Storage.Delete ("role/" ++ strings.ToLower (getString data.name)) =
        .ok after := by
      unfold azureAuthBackend.pathRoleDelete at hdel
      simp only [hname, if_false] at hdel
      cases hd : deleteReq.Storage.Delete ("role/" ++ strings.ToLower (getString data.name)) with
      | error e => simp [hd] at hdel
      | ok s2 =>
        simp only [hd, RoleOutcome.mk.injEq, true_and] at hdel
        rw [hdel]
    rcases Storage.Get_after_Delete _ _ _ hdelete with hget | ⟨e, hget⟩
    · exact ⟨"role " ++ getString data.name ++ " does not exist during renewal",
        [.role (getString data.name)],
        by simp [azureAuthBackend.pathLoginRenew, hauth, hpin, hname, azureAuthBackend.role,
          hstore, hget], by simp⟩
    · exact ⟨"failed to validate role " ++ getString data.name ++ " during renewal:" ++ e,
        [.role (getString data.name)],
        by simp [azureAuthBackend.pathLoginRenew, hauth, hpin, hname, azureAuthBackend.role,
          hstore, hget], by simp⟩

/-- Witness of C7: role `batch` is deleted from the demo store, and the renewal of a lease
issued under `batch` fails. -/
theorem C7_renew_after_delete_is_fatal_witness :
    ∃ (err : String) (calls : List Call),
      demoBackend.pathLoginRenew demoLeaseExtend
          ⟨.RenewOperation, ⟨[("role/dev", .roleJSON demoRole)], []⟩, some demoAuth⟩ =
        .returned ⟨none, some err, calls⟩ ∧ Call.LeaseExtend ∉ calls :=
  C7_renew_after_delete_is_fatal demoBackend demoLeaseExtend
    ⟨.DeleteOperation, demoStorage, none⟩ ⟨some "batch", none, none, none, none, none⟩ "batch"
    ⟨[("role/dev", .roleJSON demoRole)], []⟩
    ⟨.RenewOperation, ⟨[("role/dev", .roleJSON demoRole)], []⟩, some demoAuth⟩ demoAuth
    rfl rfl rfl rfl rfl

/-- C8, the code at the failing input: a renewal whose internal metadata has no `role` entry
aborts with a run-time panic at the type assertion instead of returning an error, while an
empty-string role name does return the fatal error. -/
theorem C8_renew_without_role_entry_panics :
    demoBackend.pathLoginRenew demoLeaseExtend
        ⟨.RenewOperation, demoStorage, some { demoAuth with InternalData := [] }⟩ =
      .panicked "interface conversion: interface is nil, not string" ∧
    demoBackend.pathLoginRenew demoLeaseExtend
        ⟨.RenewOperation, demoStorage, some { demoAuth with InternalData := [("role", .str "")] }⟩ =
      .returned ⟨none, some "failed to fetch role_name during renewal", []⟩ := by
  decide

/-! ## Role writes: validation -/

/-- When `pathRoleCreateUpdate` reaches the field applications and none of the three validations
rejects the result, it writes the role entry `applyFields` describes under the lower-cased name,
and returns a nil error and, if `max_ttl` exceeds the maximum lease TTL, a warning. -/
theorem pathRoleCreateUpdate_accepted (b : azureAuthBackend)
    (ParsePolicies : List String → List String) (req : Request) (data : RoleFieldData)
    (found : Option roleEntry) (start : roleEntry) (after : Storage)
    (hname : getString data.name ≠ "")
    (hfound : b.role req.Storage (getString data.name) = .ok found)
    (hstart : startingRole found req.Operation = some start)
    (hperiod : (applyFields ParsePolicies req.Operation data start).Period ≤ b.System.MaxLeaseTTL)
    (huses : 0 ≤ (applyFields ParsePolicies req.Operation data start).NumUses)
    (httl : ¬ ((applyFields ParsePolicies req.Operation data start).MaxTTL > 0 ∧
      (applyFields ParsePolicies req.Operation data start).TTL >
        (applyFields ParsePolicies req.Operation data start).MaxTTL))
    (hput : req.Storage.Put ⟨"role/" ++ strings.ToLower (getString data.name),
      .roleJSON (applyFields ParsePolicies req.Operation data start)⟩ = .ok after) :
    b.pathRoleCreateUpdate ParsePolicies req data =
      ⟨if (applyFields ParsePolicies req.Operation data start).MaxTTL > b.System.MaxLeaseTTL
          then some ⟨none, [], [maxTTLWarning]⟩ else none,
        none, after⟩ := by
  unfold azureAuthBackend.pathRoleCreateUpdate
  simp only [hname, if_false, hfound, hstart]
  cases hp : data.policies <;>
    simp_all [applyFields, logical.StorageEntryJSON, not_lt.mpr]

/-- C9: a create or update request that reaches the field applications and after them has
`maxTTL > 0` and `ttl > maxTTL` is rejected with a validation error response and a nil error
(the ttl error, unless the period or the num_uses validation has rejected it before), and the
storage is left as it was. -/
theorem C9_ttl_above_max_ttl_rejected (b : azureAuthBackend)
    (ParsePolicies : List String → List String) (req : Request) (data : RoleFieldData)
    (found : Option roleEntry) (start : roleEntry)
    (hname : getString data.name ≠ "")
    (hfound : b.role req.Storage (getString data.name) = .ok found)
    (hstart : startingRole found req.Operation = some start)
    (hmax : (applyFields ParsePolicies req.Operation data start).MaxTTL > 0)
    (httl : (applyFields ParsePolicies req.Operation data start).TTL >
      (applyFields ParsePolicies req.Operation data start).MaxTTL) :
    b.pathRoleCreateUpdate ParsePolicies req data =
      ⟨some (logical.ErrorResponse
          (if (applyFields ParsePolicies req.Operation data start).Period > b.System.MaxLeaseTTL
            then
              periodMessage (applyFields ParsePolicies req.Operation data start).Period
                b.System.MaxLeaseTTL
            else if (applyFields ParsePolicies req.Operation data start).NumUses < 0 then
              "num_uses cannot be negative"
            else "ttl should not be greater than max_ttl")),
        none, req.Storage⟩ := by
  unfold azureAuthBackend.pathRoleCreateUpdate
  simp only [hname, if_false, hfound, hstart]
  cases hp : data.policies <;> simp only [applyFields, hp] at hmax httl ⊢ <;>
    split_ifs <;> simp_all

/-- Witness of C9: a create of role `web` with ttl 7200s and max_ttl 3600s. -/
theorem C9_ttl_above_max_ttl_rejected_witness :
    demoBackend.pathRoleCreateUpdate id ⟨.CreateOperation, demoStorage, none⟩
        ⟨some "web", some ["default"], none, some 7200, some 3600, none⟩ =
      ⟨some (logical.ErrorResponse "ttl should not be greater than max_ttl"), none,
        demoStorage⟩ :=
  C9_ttl_above_max_ttl_rejected demoBackend id ⟨.CreateOperation, demoStorage, none⟩
    ⟨some "web", some ["default"], none, some 7200, some 3600, none⟩ none roleEntry.zero
    (by decide) rfl rfl (by decide) (by decide)

/-- C10: a create or update request that reaches the field applications and after them has a
period that is positive and greater than the system's maximum lease TTL is rejected with the
period error response and a nil error, and the storage is left as it was. -/
theorem C10_period_above_max_lease_rejected (b : azureAuthBackend)
    (ParsePolicies : List String → List String) (req : Request) (data : RoleFieldData)
    (found : Option roleEntry) (start : roleEntry)
    (hname : getString data.name ≠ "")
    (hfound : b.role req.Storage (getString data.name) = .ok found)
    (hstart : startingRole found req.Operation = some start)
    (_hpos : (applyFields ParsePolicies req.Operation data start).Period > 0)
    (hperiod : (applyFields ParsePolicies req.Operation data start).Period >
      b.System.MaxLeaseTTL) :
    b.pathRoleCreateUpdate ParsePolicies req data =
      ⟨some (logical.ErrorResponse
          (periodMessage (applyFields ParsePolicies req.Operation data start).Period
            b.System.MaxLeaseTTL)),
        none, req.Storage⟩ := by
  unfold azureAuthBackend.pathRoleCreateUpdate
  simp only [hname, if_false, hfound, hstart]
  cases hp : data.policies <;> simp only [applyFields, hp] at hperiod ⊢ <;> simp_all

/-- Witness of C10: an update of role `dev` to a period of 40 days, on a mount whose maximum
lease TTL is 32 days. -/
theorem C10_period_above_max_lease_rejected_witness :
    demoBackend.pathRoleCreateUpdate id ⟨.UpdateOperation, demoStorage, none⟩
        ⟨some "dev", none, none, none, none, some 3456000⟩ =
      ⟨some (logical.ErrorResponse (periodMessage 3456000000000000 2764800000000000)), none,
        demoStorage⟩ :=
  C10_period_above_max_lease_rejected demoBackend id ⟨.UpdateOperation, demoStorage, none⟩
    ⟨some "dev", none, none, none, none, some 3456000⟩ (some demoRole) demoRole
    (by decide) rfl rfl (by decide) (by decide)

/-! ## Storage facts -/

/-- Filtering out the entries under `key` does not change the lookup of another key. -/
theorem lookup_filter_ne_other (key k : String) (l : List (String × Bytes)) (hk : k ≠ key) :
    (l.filter (fun e => e.1 != key)).lookup k = l.lookup k := by
  induction l with
  | nil => rfl
  | cons e rest ih =>
    obtain ⟨k2, v⟩ := e
    rw [List.filter_cons]
    split
    · by_cases h2 : k = k2
      · simp [List.lookup, h2]
      · have hb : (k == k2) = false := by simpa using h2
        simp only [List.lookup, hb]
        exact ih
    · rename_i h
      have hkey : k2 = key := by simpa using h
      have hb : (k == k2) = false := by
        simpa using fun h3 : k = k2 => hk (h3.trans hkey)
      simp only [List.lookup, hb]
      exact ih

/-- Neither `Put` nor `Delete` changes which operations fail, so `fault` only reads `faults`. -/
theorem Storage.fault_mk (entries : List (String × Bytes)) (s : Storage) (op : StorageOp)
    (key : String) : Storage.fault ⟨entries, s.faults⟩ op key = s.fault op key := rfl

/-- A `Put` that the storage does not fail replaces the entry under the key. -/
theorem Storage.Put_ok (s : Storage) (key : String) (v : Bytes)
    (hput : s.fault .Put key = none) :
    s.Put ⟨key, v⟩ = .ok ⟨(key, v) :: s.entries.filter (fun e => e.1 != key), s.faults⟩ := by
  simp [Storage.Put, hput]

/-- A `Delete` that the storage does not fail removes the entries under the key. -/
theorem Storage.Delete_ok (s : Storage) (key : String) (hdel : s.fault .Delete key = none) :
    s.Delete key = .ok ⟨s.entries.filter (fun e => e.1 != key), s.faults⟩ := by
  simp [Storage.Delete, hdel]

/-- The role entry found under a name, when `Get` does not fail: the decoded stored value. -/
theorem role_of_lookup (b : azureAuthBackend) (s : Storage) (name : String)
    (hget : s.fault .Get ("role/" ++ strings.ToLower name) = none) :
    b.role s name =
      match s.entries.lookup ("role/" ++ strings.ToLower name) with
      | none => .ok none
      | some (.roleJSON r) => .ok (some r)
      | some (.malformed err) => .error err := by
  unfold azureAuthBackend.role Storage.Get
  simp only [hget]
  cases h : s.entries.lookup ("role/" ++ strings.ToLower name) with
  | none => simp
  | some v => cases v <;> simp [json.Unmarshal]

/-- The role lookup only depends on the lower-cased name. -/
theorem role_congr (b : azureAuthBackend) (s : Storage) (n1 n2 : String)
    (h : strings.ToLower n1 = strings.ToLower n2) : b.role s n1 = b.role s n2 := by
  unfold azureAuthBackend.role
  rw [h]

/-- Lower-casing keeps the empty name apart from the non-empty ones. -/
theorem ToLower_eq_empty (n : String) : strings.ToLower n = "" ↔ n = "" := by
  constructor
  · intro h
    have hd : (strings.ToLower n).data = [] := by rw [h]
    simp only [strings.ToLower, List.map_eq_nil_iff] at hd
    exact String.ext hd
  · intro h
    subst h
    rfl

/-- Storage keys of roles with different lower-cased names differ. -/
theorem roleKey_ne (a c : String) (h : a ≠ c) : "role/" ++ a ≠ "role/" ++ c := by
  intro hk
  apply h
  have hd := congrArg String.data hk
  simp only [String.data_append] at hd
  exact String.ext (List.append_cancel_left hd)
/-! ## Role writes: the outcome in terms of the applied fields -/

/-- Once `pathRoleCreateUpdate` reaches the field applications, its outcome is decided by the
role entry `applyFields` describes: the three validations in source order, then the write. -/
theorem pathRoleCreateUpdate_eq (b : azureAuthBackend)
    (ParsePolicies : List String → List String) (req : Request) (data : RoleFieldData)
    (found : Option roleEntry) (start : roleEntry)
    (hname : getString data.name ≠ "")
    (hfound : b.role req.Storage (getString data.name) = .ok found)
    (hstart : startingRole found req.Operation = some start) :
    b.pathRoleCreateUpdate ParsePolicies req data =
      if (applyFields ParsePolicies req.Operation data start).Period > b.System.MaxLeaseTTL then
        ⟨some (logical.ErrorResponse
            (periodMessage (applyFields ParsePolicies req.Operation data start).Period
              b.System.MaxLeaseTTL)),
          none, req.Storage⟩
      else if (applyFields ParsePolicies req.Operation data start).NumUses < 0 then
        ⟨some (logical.ErrorResponse "num_uses cannot be negative"), none, req.Storage⟩
      else if (applyFields ParsePolicies req.Operation data start).MaxTTL > 0 ∧
          (applyFields ParsePolicies req.Operation data start).TTL >
            (applyFields ParsePolicies req.Operation data start).MaxTTL then
        ⟨some (logical.ErrorResponse "ttl should not be greater than max_ttl"), none,
          req.Storage⟩
      else
        match req.Storage.Put ⟨"role/" ++ strings.ToLower (getString data.name),
            .roleJSON (applyFields ParsePolicies req.Operation data start)⟩ with
        | .error err => ⟨none, some err, req.Storage⟩
        | .ok storage =>
          ⟨if (applyFields ParsePolicies req.Operation data start).MaxTTL >
                b.System.MaxLeaseTTL
              then some ⟨none, [], [maxTTLWarning]⟩ else none,
            none, storage⟩ := by
  unfold azureAuthBackend.pathRoleCreateUpdate
  simp only [hname, if_false, hfound, hstart]
  cases hp : data.policies <;> simp only [applyFields, hp, logical.StorageEntryJSON]

/-- Every return of `pathRoleCreateUpdate` before the field applications is a rejection that
leaves the storage as it was. -/
theorem pathRoleCreateUpdate_early (b : azureAuthBackend)
    (ParsePolicies : List String → List String) (req : Request) (data : RoleFieldData)
    (hearly : getString data.name = "" ∨ (∃ err, b.role req.Storage (getString data.name) =
        .error err) ∨ ∃ found, b.role req.Storage (getString data.name) = .ok found ∧
          startingRole found req.Operation = none) :
    (b.pathRoleCreateUpdate ParsePolicies req data).rejected = true ∧
      (b.pathRoleCreateUpdate ParsePolicies req data).storage = req.Storage := by
  unfold azureAuthBackend.pathRoleCreateUpdate
  by_cases hname : getString data.name = ""
  · simp [hname, RoleOutcome.rejected, logical.ErrorResponse, Response.IsError]
  · rcases hearly with h | ⟨err, h⟩ | ⟨found, h, hs⟩
    · exact absurd h hname
    · simp [hname, h, RoleOutcome.rejected]
    · simp [hname, h, hs, RoleOutcome.rejected]

/-- A `Put` fails, or replaces the entry under the key and changes nothing else. -/
theorem Storage.Put_cases (s : Storage) (entry : StorageEntry) :
    (∃ err, s.fault .Put entry.Key = some err ∧ s.Put entry = .error err) ∨
      (s.fault .Put entry.Key = none ∧
        s.Put entry =
          .ok ⟨(entry.Key, entry.Value) :: s.entries.filter (fun e => e.1 != entry.Key),
            s.faults⟩) := by
  unfold Storage.Put
  cases h : s.fault .Put entry.Key with
  | some err => exact Or.inl ⟨err, rfl, rfl⟩
  | none => exact Or.inr ⟨rfl, rfl⟩

/-- A `Delete` fails, or removes the entries under the key and changes nothing else. -/
theorem Storage.Delete_cases (s : Storage) (key : String) :
    (∃ err, s.Delete key = .error err) ∨
      s.Delete key = .ok ⟨s.entries.filter (fun e => e.1 != key), s.faults⟩ := by
  unfold Storage.Delete
  cases h : s.fault .Delete key with
  | some err => exact Or.inl ⟨err, rfl⟩
  | none => exact Or.inr rfl

/-- Every call of `pathRoleCreateUpdate` is either rejected, and then leaves the storage as it
was, or accepted, and then it reached the field applications, the three validations passed, the
write did not fail, and the storage holds the applied role entry under the lower-cased name. -/
theorem pathRoleCreateUpdate_cases (b : azureAuthBackend)
    (ParsePolicies : List String → List String) (req : Request) (data : RoleFieldData) :
    ((b.pathRoleCreateUpdate ParsePolicies req data).rejected = true ∧
        (b.pathRoleCreateUpdate ParsePolicies req data).storage = req.Storage) ∨
      ((b.pathRoleCreateUpdate ParsePolicies req data).rejected = false ∧
        ∃ (found : Option roleEntry) (start : roleEntry),
          b.role req.Storage (getString data.name) = .ok found ∧
            startingRole found req.Operation = some start ∧
            (applyFields ParsePolicies req.Operation data start).Period ≤
              b.System.MaxLeaseTTL ∧
            0 ≤ (applyFields ParsePolicies req.Operation data start).NumUses ∧
            ¬ ((applyFields ParsePolicies req.Operation data start).MaxTTL > 0 ∧
              (applyFields ParsePolicies req.Operation data start).TTL >
                (applyFields ParsePolicies req.Operation data start).MaxTTL) ∧
            req.Storage.fault .Put ("role/" ++ strings.ToLower (getString data.name)) = none ∧
            (b.pathRoleCreateUpdate ParsePolicies req data).storage =
              ⟨("role/" ++ strings.ToLower (getString data.name),
                  .roleJSON (applyFields ParsePolicies req.Operation data start)) ::
                req.Storage.entries.filter
                  (fun e => e.1 != "role/" ++ strings.ToLower (getString data.name)),
                req.Storage.faults⟩) := by
  by_cases hname : getString data.name = ""
  · exact Or.inl (pathRoleCreateUpdate_early b ParsePolicies req data (Or.inl hname))
  cases hrole : b.role req.Storage (getString data.name) with
  | error err =>
    exact Or.inl (pathRoleCreateUpdate_early b ParsePolicies req data
      (Or.inr (Or.inl ⟨err, hrole⟩)))
  | ok found =>
    cases hstart : startingRole found req.Operation with
    | none =>
      exact Or.inl (pathRoleCreateUpdate_early b ParsePolicies req data
        (Or.inr (Or.inr ⟨found, hrole, hstart⟩)))
    | some start =>
      rw [pathRoleCreateUpdate_eq b ParsePolicies req data found start hname hrole hstart]
      by_cases h1 : (applyFields ParsePolicies req.Operation data start).Period >
          b.System.MaxLeaseTTL
      · left
        simp [h1, RoleOutcome.rejected, logical.ErrorResponse, Response.IsError]
      by_cases h2 : (applyFields ParsePolicies req.Operation data start).NumUses < 0
      · left
        simp [h1, h2, RoleOutcome.rejected, logical.ErrorResponse, Response.IsError]
      by_cases h3 : (applyFields ParsePolicies req.Operation data start).MaxTTL > 0 ∧
          (applyFields ParsePolicies req.Operation data start).TTL >
            (applyFields ParsePolicies req.Operation data start).MaxTTL
      · left
        simp [h1, h2, h3, RoleOutcome.rejected, logical.ErrorResponse, Response.IsError]
      simp only [h1, h2, h3, if_false]
      rcases Storage.Put_cases req.Storage ⟨"role/" ++ strings.ToLower (getString data.name),
          .roleJSON (applyFields ParsePolicies req.Operation data start)⟩ with
        ⟨err, _, hput⟩ | ⟨hfault, hput⟩
      · left
        simp [hput, RoleOutcome.rejected]
      · right
        rw [hput]
        refine ⟨?_, found, start, rfl, hstart, not_lt.mp h1, not_lt.mp h2, h3, hfault, rfl⟩
        split_ifs <;> simp [RoleOutcome.rejected, Response.IsError]
/-! ## Role writes: num_uses -/

/-- The period rejection and the num_uses rejection are different responses. -/
theorem periodMessage_ne_num_uses (period maxLeaseTTL : Int) :
    periodMessage period maxLeaseTTL ≠ "num_uses cannot be negative" := by
  intro h
  have hd := congrArg (fun s : String => s.data.head?) h
  simp only [periodMessage, String.data_append, List.cons_append, List.head?_cons,
    Option.some.injEq] at hd
  exact absurd hd (by decide)

/-- Counterexample to C11 as stated: a create of role `web` with `num_uses` 0, ttl 7200s and
max_ttl 3600s has a non-negative resulting `num_uses` and is rejected, by the ttl validation. -/
theorem C11_nonnegative_num_uses_rejected :
    (applyFields id .CreateOperation ⟨some "web", none, some 0, some 7200, some 3600, none⟩
        roleEntry.zero).NumUses = 0 ∧
      demoBackend.pathRoleCreateUpdate id ⟨.CreateOperation, demoStorage, none⟩
          ⟨some "web", none, some 0, some 7200, some 3600, none⟩ =
        ⟨some (logical.ErrorResponse "ttl should not be greater than max_ttl"), none,
          demoStorage⟩ ∧
      (demoBackend.pathRoleCreateUpdate id ⟨.CreateOperation, demoStorage, none⟩
          ⟨some "web", none, some 0, some 7200, some 3600, none⟩).accepted = false := by
  decide

/-- C11, amended: for a create or update request that reaches the field applications, a negative
resulting `num_uses` is always rejected, with the `num_uses cannot be negative` response or the
earlier period response, and nothing is written; a resulting `num_uses` of 0 or more never
draws the `num_uses` rejection, and the request is accepted whenever the period and
ttl/max_ttl validations also pass and the storage write does not fail. -/
theorem C11_num_uses_validation (b : azureAuthBackend)
    (ParsePolicies : List String → List String) (req : Request) (data : RoleFieldData)
    (found : Option roleEntry) (start : roleEntry)
    (hname : getString data.name ≠ "")
    (hfound : b.role req.Storage (getString data.name) = .ok found)
    (hstart : startingRole found req.Operation = some start) :
    ((applyFields ParsePolicies req.Operation data start).NumUses < 0 →
        (b.pathRoleCreateUpdate ParsePolicies req data).rejected = true ∧
          (b.pathRoleCreateUpdate ParsePolicies req data).storage = req.Storage ∧
          (b.pathRoleCreateUpdate ParsePolicies req data).err = none ∧
          ((b.pathRoleCreateUpdate ParsePolicies req data).resp =
              some (logical.ErrorResponse "num_uses cannot be negative") ∨
            (b.pathRoleCreateUpdate ParsePolicies req data).resp =
              some (logical.ErrorResponse
                (periodMessage (applyFields ParsePolicies req.Operation data start).Period
                  b.System.MaxLeaseTTL)))) ∧
      (0 ≤ (applyFields ParsePolicies req.Operation data start).NumUses →
        (b.pathRoleCreateUpdate ParsePolicies req data).resp ≠
            some (logical.ErrorResponse "num_uses cannot be negative") ∧
          ((applyFields ParsePolicies req.Operation data start).Period ≤ b.System.MaxLeaseTTL →
            ¬ ((applyFields ParsePolicies req.Operation data start).MaxTTL > 0 ∧
              (applyFields ParsePolicies req.Operation data start).TTL >
                (applyFields ParsePolicies req.Operation data start).MaxTTL) →
            req.Storage.fault .Put ("role/" ++ strings.ToLower (getString data.name)) = none →
            (b.pathRoleCreateUpdate ParsePolicies req data).accepted = true)) := by
  rw [pathRoleCreateUpdate_eq b ParsePolicies req data found start hname hfound hstart]
  constructor
  · intro hneg
    by_cases hp : (applyFields ParsePolicies req.Operation data start).Period >
        b.System.MaxLeaseTTL
    · simp [hp, RoleOutcome.rejected, logical.ErrorResponse, Response.IsError]
    · simp [hp, hneg, RoleOutcome.rejected, logical.ErrorResponse, Response.IsError]
  · intro hpos
    have hnn : ¬ (applyFields ParsePolicies req.Operation data start).NumUses < 0 :=
      not_lt.mpr hpos
    constructor
    · by_cases hp : (applyFields ParsePolicies req.Operation data start).Period >
          b.System.MaxLeaseTTL
      · simp only [hp, if_true]
        intro h
        have h2 := congrArg (fun r => r.map (fun x => x.Data)) h
        simp only [Option.map_some', logical.ErrorResponse, Option.some.injEq, List.cons.injEq,
          Prod.mk.injEq, Value.str.injEq, true_and, and_true] at h2
        exact periodMessage_ne_num_uses _ _ h2
      · simp only [hp, if_false, hnn]
        split_ifs
        · simp only [logical.ErrorResponse, ne_eq, Option.some.injEq, Response.mk.injEq,
            List.cons.injEq, Prod.mk.injEq, Value.str.injEq, true_and, and_true]
          decide
        · split <;> simp [logical.ErrorResponse]
        · split <;> simp [logical.ErrorResponse]
    · intro hperiod httl hput
      have hp : ¬ (applyFields ParsePolicies req.Operation data start).Period >
          b.System.MaxLeaseTTL := not_lt.mpr hperiod
      simp only [hp, if_false, hnn, httl, Storage.Put_ok _ _ _ hput]
      split_ifs <;> simp [RoleOutcome.accepted, RoleOutcome.rejected, Response.IsError]

/-- Witness of C11: on the demo store a create of role `web` with `num_uses` -1 is rejected and
one with `num_uses` 3 is accepted. -/
theorem C11_num_uses_validation_witness :
    (demoBackend.pathRoleCreateUpdate id ⟨.CreateOperation, demoStorage, none⟩
        ⟨some "web", none, some (-1), none, none, none⟩).rejected = true ∧
      (demoBackend.pathRoleCreateUpdate id ⟨.CreateOperation, demoStorage, none⟩
        ⟨some "web", none, some 3, none, none, none⟩).accepted = true :=
  ⟨((C11_num_uses_validation demoBackend id ⟨.CreateOperation, demoStorage, none⟩
      ⟨some "web", none, some (-1), none, none, none⟩ none roleEntry.zero (by decide) rfl
      rfl).1 (by decide)).1,
    ((C11_num_uses_validation demoBackend id ⟨.CreateOperation, demoStorage, none⟩
      ⟨some "web", none, some 3, none, none, none⟩ none roleEntry.zero (by decide) rfl
      rfl).2 (by decide)).2 (by decide) (by decide) rfl⟩

/-! ## The invariant of the role store -/

/-- A lookup that finds a value finds it in an entry of the list. -/
theorem lookup_mem (k : String) (v : Bytes) (l : List (String × Bytes))
    (h : l.lookup k = some v) : (k, v) ∈ l := by
  induction l with
  | nil => simp [List.lookup] at h
  | cons e rest ih =>
    obtain ⟨k2, v2⟩ := e
    by_cases hk : k = k2
    · subst hk
      simp only [List.lookup, beq_self_eq_true, Option.some.injEq] at h
      subst h
      exact List.mem_cons_self _ _
    · have hb : (k == k2) = false := by simpa using hk
      simp only [List.lookup, hb] at h
      exact List.mem_cons_of_mem _ (ih h)

/-- One role call keeps the store invariant. -/
theorem applyRoleCall_invariant (b : azureAuthBackend)
    (ParsePolicies : List String → List String) (s : Storage) (call : RoleCall)
    (hs : storeInvariant b.System.MaxLeaseTTL s) :
    storeInvariant b.System.MaxLeaseTTL (applyRoleCall b ParsePolicies s call) := by
  cases call with
  | delete data =>
    simp only [applyRoleCall, azureAuthBackend.pathRoleDelete]
    by_cases hname : getString data.name = ""
    · simpa [hname] using hs
    · simp only [hname, if_false]
      rcases Storage.Delete_cases s ("role/" ++ strings.ToLower (getString data.name)) with
        ⟨err, hd⟩ | hd
      · simpa [hd] using hs
      · simp only [hd]
        intro e he
        exact hs e (List.mem_of_mem_filter he)
  | createUpdate op data =>
    simp only [applyRoleCall]
    rcases pathRoleCreateUpdate_cases b ParsePolicies ⟨op, s, none⟩ data with
      ⟨_, hsame⟩ | ⟨_, found, start, _, _, h1, h2, h3, _, hout⟩
    · rw [hsame]
      exact hs
    · rw [hout]
      intro e he
      simp only [List.mem_cons] at he
      rcases he with he | he
      · subst he
        refine ⟨_, rfl, ?_, h1, h2⟩
        by_cases hm : (applyFields ParsePolicies op data start).MaxTTL ≤ 0
        · exact Or.inl hm
        · exact Or.inr (not_lt.mp (fun hgt => h3 ⟨not_le.mp hm, hgt⟩))
      · exact hs e (List.mem_of_mem_filter he)

/-- A sequence of role calls keeps the store invariant. -/
theorem runRoleCalls_invariant (b : azureAuthBackend)
    (ParsePolicies : List String → List String) (calls : List RoleCall) (s : Storage)
    (hs : storeInvariant b.System.MaxLeaseTTL s) :
    storeInvariant b.System.MaxLeaseTTL (runRoleCalls b ParsePolicies s calls) := by
  induction calls generalizing s with
  | nil => exact hs
  | cons call rest ih =>
    exact ih _ (applyRoleCall_invariant b ParsePolicies s call hs)

/-- Counterexample to C12 as stated: from the empty store, a create of role `web` with ttl 10s
and max_ttl -5s is written, and so is a create of role `big` with ttl 10s and max_ttl
9223372037s, whose product with `time.Second` wraps to a negative duration; each stored role
has `maxTTL` different from 0 and `ttl` above `maxTTL`, against the invariant as the spec words
it. -/
theorem C12_negative_max_ttl_is_stored :
    (runRoleCalls demoBackend id ⟨[], []⟩
          [.createUpdate .CreateOperation ⟨some "web", none, none, some 10, some (-5), none⟩] =
        ⟨[("role/web", .roleJSON ⟨[], 0, 10000000000, -5000000000, 0⟩)], []⟩ ∧
      ¬ specInvariant demoBackend.System.MaxLeaseTTL ⟨[], 0, 10000000000, -5000000000, 0⟩) ∧
    (runRoleCalls demoBackend id ⟨[], []⟩
          [.createUpdate .CreateOperation
            ⟨some "big", none, none, some 10, some 9223372037, none⟩] =
        ⟨[("role/big", .roleJSON ⟨[], 0, 10000000000, -9223372036709551616, 0⟩)], []⟩ ∧
      ¬ specInvariant demoBackend.System.MaxLeaseTTL
        ⟨[], 0, 10000000000, -9223372036709551616, 0⟩) := by
  refine ⟨⟨by decide, ?_⟩, ⟨by decide, ?_⟩⟩ <;> simp [specInvariant]

/-- C12, amended: starting from an empty store, with a fixed system maximum lease TTL and
whatever storage operations fail, after any sequence of `pathRoleCreateUpdate` and
`pathRoleDelete` calls with arbitrary integer field inputs every entry of the store is a role
with (`maxTTL <= 0` or `ttl <= maxTTL`), `period <=` the maximum lease TTL and `numUses >= 0`;
so is every role the lookup `role` returns. -/
theorem C12_store_invariant (b : azureAuthBackend) (ParsePolicies : List String → List String)
    (faults : List Fault) (calls : List RoleCall) :
    (∀ e ∈ (runRoleCalls b ParsePolicies ⟨[], faults⟩ calls).entries,
        ∃ r, e.2 = .roleJSON r ∧ writeInvariant b.System.MaxLeaseTTL r) ∧
      ∀ (name : String) (r : roleEntry),
        b.role (runRoleCalls b ParsePolicies ⟨[], faults⟩ calls) name = .ok (some r) →
          writeInvariant b.System.MaxLeaseTTL r := by
  have hinv : storeInvariant b.System.MaxLeaseTTL
      (runRoleCalls b ParsePolicies ⟨[], faults⟩ calls) :=
    runRoleCalls_invariant b ParsePolicies calls ⟨[], faults⟩ (by intro e he; cases he)
  refine ⟨hinv, ?_⟩
  intro name r hr
  cases hf : (runRoleCalls b ParsePolicies ⟨[], faults⟩ calls).fault .Get
      ("role/" ++ strings.ToLower name) with
  | some err => simp [azureAuthBackend.role, Storage.Get, hf] at hr
  | none =>
    rw [role_of_lookup b _ name hf] at hr
    cases hl : (runRoleCalls b ParsePolicies ⟨[], faults⟩ calls).entries.lookup
        ("role/" ++ strings.ToLower name) with
    | none => simp [hl] at hr
    | some v =>
      obtain ⟨r2, hv, hw⟩ := hinv _ (lookup_mem _ _ _ hl)
      simp only at hv
      subst hv
      simp only [hl, Except.ok.injEq, Option.some.injEq] at hr
      subst hr
      exact hw

/-- Witness of C12: after a create of `web` with ttl 3600s and max_ttl 7200s, a rejected
create of `bad` with `num_uses` -1 and a delete of `dev`, on the empty store, the stored entry
of `web` is a role that satisfies the invariant. -/
theorem C12_store_invariant_witness :
    ∃ r, Bytes.roleJSON ⟨[], 0, 3600000000000, 7200000000000, 0⟩ = .roleJSON r ∧
      writeInvariant demoBackend.System.MaxLeaseTTL r :=
  (C12_store_invariant demoBackend id []
    [.createUpdate .CreateOperation ⟨some "web", none, none, some 3600, some 7200, none⟩,
      .createUpdate .CreateOperation ⟨some "bad", none, some (-1), none, none, none⟩,
      .delete ⟨some "dev", none, none, none, none, none⟩]).1
    ("role/web", .roleJSON ⟨[], 0, 3600000000000, 7200000000000, 0⟩) (by decide)

/-! ## Round trip and partial update -/

/-- Within 9223372036 seconds either way the conversion to a duration does not wrap. -/
theorem secondsToDuration_exact (x : Int) (hlo : -9223372036 ≤ x) (hhi : x ≤ 9223372036) :
    secondsToDuration x = 1000000000 * x := by
  unfold secondsToDuration wrapInt64 time.Second
  omega

/-- On a create every integer field is set from `data.Get`. -/
theorem applyField_create (raw : Option Int) (convert : Int → Int) (old : Int) :
    applyField .CreateOperation raw convert old = convert (getInt raw) := by
  cases raw <;> simp [applyField, getInt]

/-- The role found after the entry under its key has been replaced, when `Get` does not fail. -/
theorem role_after_write (b : azureAuthBackend) (s : Storage) (name : String) (v : roleEntry)
    (hget : s.fault .Get ("role/" ++ strings.ToLower name) = none) :
    b.role
        ⟨("role/" ++ strings.ToLower name, .roleJSON v) ::
            s.entries.filter (fun e => e.1 != "role/" ++ strings.ToLower name), s.faults⟩
        name = .ok (some v) := by
  rw [role_of_lookup b _ name (by rw [Storage.fault_mk]; exact hget)]
  simp [List.lookup]

/-- What `pathRoleRead` returns for a role that the lookup finds. -/
theorem pathRoleRead_found (b : azureAuthBackend) (req : Request) (data : RoleFieldData)
    (r : roleEntry) (hname : getString data.name ≠ "")
    (hrole : b.role req.Storage (getString data.name) = .ok (some r)) :
    b.pathRoleRead req data =
      ⟨some ⟨none,
          readData r.Policies r.NumUses (Int.tdiv r.TTL time.Second)
            (Int.tdiv r.MaxTTL time.Second) (Int.tdiv r.Period time.Second), []⟩,
        none, req.Storage⟩ := by
  simp [azureAuthBackend.pathRoleRead, hname, hrole, readData]

/-- Counterexample to C13 as stated: on the demo store the create of role `web` with ttl
9223372037s is accepted, and the read of `web` that follows returns a ttl of -9223372036s. -/
theorem C13_round_trip_wraps :
    (demoBackend.pathRoleCreateUpdate id ⟨.CreateOperation, demoStorage, none⟩
        ⟨some "web", some ["default"], some 0, some 9223372037, some 0, some 0⟩).accepted =
        true ∧
      (demoBackend.pathRoleRead
          ⟨.ReadOperation,
            (demoBackend.pathRoleCreateUpdate id ⟨.CreateOperation, demoStorage, none⟩
              ⟨some "web", some ["default"], some 0, some 9223372037, some 0, some 0⟩).storage,
            none⟩
          ⟨some "web", none, none, none, none, none⟩).resp =
        some ⟨none, readData ["default"] 0 (-9223372036) 0 0, []⟩ := by
  decide

/-- C13, amended: for every create request with policies `p` that `pathRoleCreateUpdate`
accepts and whose ttl, max_ttl and period (absent fields count as 0) are between -9223372036
and 9223372036 seconds, so that no conversion wraps, a following `pathRoleRead` of the same
name whose storage read does not fail returns the policies as `ParsePolicies` returned them
and identical num_uses, ttl, max_ttl and period, in seconds. -/
theorem C13_round_trip (b : azureAuthBackend) (ParsePolicies : List String → List String)
    (req : Request) (data : RoleFieldData) (p : List String) (readReq : Request)
    (readFields : RoleFieldData)
    (hop : req.Operation = .CreateOperation) (hp : data.policies = some p)
    (haccepted : (b.pathRoleCreateUpdate ParsePolicies req data).accepted = true)
    (httl : -9223372036 ≤ getInt data.ttl ∧ getInt data.ttl ≤ 9223372036)
    (hmax : -9223372036 ≤ getInt data.max_ttl ∧ getInt data.max_ttl ≤ 9223372036)
    (hperiod : -9223372036 ≤ getInt data.period ∧ getInt data.period ≤ 9223372036)
    (hstore : readReq.Storage = (b.pathRoleCreateUpdate ParsePolicies req data).storage)
    (hsame : getString readFields.name = getString data.name)
    (hget : req.Storage.fault .Get ("role/" ++ strings.ToLower (getString data.name)) = none) :
    b.pathRoleRead readReq readFields =
      ⟨some ⟨none,
          readData (ParsePolicies p) (getInt data.num_uses) (getInt data.ttl)
            (getInt data.max_ttl) (getInt data.period), []⟩,
        none, readReq.Storage⟩ := by
  have hname : getString data.name ≠ "" := by
    intro h
    have := (pathRoleCreateUpdate_early b ParsePolicies req data (Or.inl h)).1
    simp [RoleOutcome.accepted, this] at haccepted
  rcases pathRoleCreateUpdate_cases b ParsePolicies req data with
    ⟨hrej, _⟩ | ⟨_, found, start, _, _, _, _, _, _, hout⟩
  · simp [RoleOutcome.accepted, hrej] at haccepted
  · have hrole : b.role readReq.Storage (getString readFields.name) =
        .ok (some (applyFields ParsePolicies req.Operation data start)) := by
      rw [hstore, hout, hsame]
      exact role_after_write b req.Storage _ _ hget
    rw [pathRoleRead_found b readReq readFields _ (by rw [hsame]; exact hname) hrole]
    simp only [applyFields, hop, hp, applyField_create, id,
      secondsToDuration_exact _ httl.1 httl.2, secondsToDuration_exact _ hmax.1 hmax.2,
      secondsToDuration_exact _ hperiod.1 hperiod.2, time.Second]
    rw [Int.mul_tdiv_cancel_left _ (by decide), Int.mul_tdiv_cancel_left _ (by decide),
      Int.mul_tdiv_cancel_left _ (by decide)]

/-- Witness of C13: on the demo store, the create of role `web` with policies `default`,
num_uses 2, ttl 3600s, max_ttl 7200s and period 60s, read back. -/
theorem C13_round_trip_witness :
    demoBackend.pathRoleRead
        ⟨.ReadOperation,
          (demoBackend.pathRoleCreateUpdate id ⟨.CreateOperation, demoStorage, none⟩
            ⟨some "web", some ["default"], some 2, some 3600, some 7200, some 60⟩).storage,
          none⟩
        ⟨some "web", none, none, none, none, none⟩ =
      ⟨some ⟨none, readData ["default"] 2 3600 7200 60, []⟩, none,
        (demoBackend.pathRoleCreateUpdate id ⟨.CreateOperation, demoStorage, none⟩
          ⟨some "web", some ["default"], some 2, some 3600, some 7200, some 60⟩).storage⟩ :=
  C13_round_trip demoBackend id ⟨.CreateOperation, demoStorage, none⟩
    ⟨some "web", some ["default"], some 2, some 3600, some 7200, some 60⟩ ["default"]
    ⟨.ReadOperation,
      (demoBackend.pathRoleCreateUpdate id ⟨.CreateOperation, demoStorage, none⟩
        ⟨some "web", some ["default"], some 2, some 3600, some 7200, some 60⟩).storage, none⟩
    ⟨some "web", none, none, none, none, none⟩ rfl rfl (by decide) (by decide) (by decide)
    (by decide) rfl rfl rfl

/-- Counterexample to C14 as stated: on the demo store the update of role `dev` that carries
only ttl 9223372037s is accepted; the stored ttl is the wrapped product, not 9223372037s, and
the read that follows returns a ttl of -9223372036s. -/
theorem C14_present_field_wraps :
    demoBackend.pathRoleCreateUpdate id ⟨.UpdateOperation, demoStorage, none⟩
        ⟨some "dev", none, none, some 9223372037, none, none⟩ =
      ⟨none, none,
        ⟨[("role/dev", .roleJSON ⟨["default"], 0, -9223372036709551616, 7200000000000, 0⟩),
          ("role/batch", .roleJSON periodicRole)], []⟩⟩ ∧
      (-9223372036709551616 : Int) ≠ 9223372037 * time.Second ∧
      (demoBackend.pathRoleRead
          ⟨.ReadOperation,
            (demoBackend.pathRoleCreateUpdate id ⟨.UpdateOperation, demoStorage, none⟩
              ⟨some "dev", none, none, some 9223372037, none, none⟩).storage, none⟩
          ⟨some "dev", none, none, none, none, none⟩).resp =
        some ⟨none, readData ["default"] 0 (-9223372036) 7200 0, []⟩ := by
  decide

/-- C14, amended: for every existing role and every accepted update request, after which the
storage read does not fail, each of policies, num_uses, ttl, max_ttl and period that is absent
from the request keeps its previously stored value; policies present are stored as
`ParsePolicies` returns them, num_uses present is stored as supplied, and a ttl, max_ttl or
period present and between -9223372036 and 9223372036 seconds is stored as that many seconds
(outside that range the product with `time.Second` wraps). -/
theorem C14_partial_update (b : azureAuthBackend) (ParsePolicies : List String → List String)
    (req : Request) (data : RoleFieldData) (old : roleEntry)
    (hop : req.Operation = .UpdateOperation)
    (hold : b.role req.Storage (getString data.name) = .ok (some old))
    (haccepted : (b.pathRoleCreateUpdate ParsePolicies req data).accepted = true)
    (hget : req.Storage.fault .Get ("role/" ++ strings.ToLower (getString data.name)) = none) :
    ∃ stored : roleEntry,
      b.role (b.pathRoleCreateUpdate ParsePolicies req data).storage (getString data.name) =
          .ok (some stored) ∧
        (data.policies = none → stored.Policies = old.Policies) ∧
        (∀ p, data.policies = some p → stored.Policies = ParsePolicies p) ∧
        (data.num_uses = none → stored.NumUses = old.NumUses) ∧
        (∀ v, data.num_uses = some v → stored.NumUses = v) ∧
        (data.ttl = none → stored.TTL = old.TTL) ∧
        (∀ v, data.ttl = some v → -9223372036 ≤ v → v ≤ 9223372036 →
          stored.TTL = time.Second * v) ∧
        (data.max_ttl = none → stored.MaxTTL = old.MaxTTL) ∧
        (∀ v, data.max_ttl = some v → -9223372036 ≤ v → v ≤ 9223372036 →
          stored.MaxTTL = time.Second * v) ∧
        (data.period = none → stored.Period = old.Period) ∧
        (∀ v, data.period = some v → -9223372036 ≤ v → v ≤ 9223372036 →
          stored.Period = time.Second * v) := by
  rcases pathRoleCreateUpdate_cases b ParsePolicies req data with
    ⟨hrej, _⟩ | ⟨_, found, start, hfound, hstart, _, _, _, _, hout⟩
  · simp [RoleOutcome.accepted, hrej] at haccepted
  · rw [hold] at hfound
    cases hfound
    simp only [startingRole, Option.some.injEq] at hstart
    subst hstart
    refine ⟨applyFields ParsePolicies req.Operation data old, ?_, ?_, ?_, ?_, ?_, ?_, ?_, ?_,
      ?_, ?_, ?_⟩
    · rw [hout]
      exact role_after_write b req.Storage _ _ hget
    · intro h
      simp [applyFields, h]
    · intro p h
      simp [applyFields, h]
    · intro h
      simp [applyFields, applyField, h, hop]
    · intro v h
      simp [applyFields, applyField, h]
    · intro h
      simp [applyFields, applyField, h, hop]
    · intro v h hlo hhi
      simp [applyFields, applyField, h, secondsToDuration_exact v hlo hhi, time.Second]
    · intro h
      simp [applyFields, applyField, h, hop]
    · intro v h hlo hhi
      simp [applyFields, applyField, h, secondsToDuration_exact v hlo hhi, time.Second]
    · intro h
      simp [applyFields, applyField, h, hop]
    · intro v h hlo hhi
      simp [applyFields, applyField, h, secondsToDuration_exact v hlo hhi, time.Second]

/-- Witness of C14: on the demo store the update of role `dev` that carries only ttl 1800s
keeps the stored policies, num_uses, max_ttl and period and stores a ttl of 1800s. -/
theorem C14_partial_update_witness :
    ∃ stored : roleEntry,
      demoBackend.role
          (demoBackend.pathRoleCreateUpdate id ⟨.UpdateOperation, demoStorage, none⟩
            ⟨some "dev", none, none, some 1800, none, none⟩).storage "dev" =
          .ok (some stored) ∧
        stored.Policies = demoRole.Policies ∧ stored.NumUses = demoRole.NumUses ∧
        stored.TTL = time.Second * 1800 ∧ stored.MaxTTL = demoRole.MaxTTL ∧
        stored.Period = demoRole.Period :=
  have ⟨stored, h⟩ := C14_partial_update demoBackend id ⟨.UpdateOperation, demoStorage, none⟩
    ⟨some "dev", none, none, some 1800, none, none⟩ demoRole rfl rfl (by decide) rfl
  ⟨stored, h.1, h.2.1 rfl, h.2.2.2.1 rfl, h.2.2.2.2.2.2.1 1800 rfl (by decide) (by decide),
    h.2.2.2.2.2.2.2.1 rfl, h.2.2.2.2.2.2.2.2.2.1 rfl⟩

/-! ## Case-insensitive names -/

/-- C15: for every store state and every two names that are equal after lower-casing, `role`
returns the same result for both; `pathRoleCreateUpdate` and `pathRoleDelete` return the same
outcome and leave the same store under either spelling; a role accepted under one spelling is
found under the other (when the storage read does not fail), and after a successful delete
under one spelling no role is found under the other. -/
theorem C15_role_names_case_insensitive (b : azureAuthBackend) (n1 n2 : String)
    (hlower : strings.ToLower n1 = strings.ToLower n2) :
    (∀ s : Storage, b.role s n1 = b.role s n2) ∧
      (∀ (ParsePolicies : List String → List String) (req : Request) (data : RoleFieldData),
        b.pathRoleCreateUpdate ParsePolicies req { data with name := some n1 } =
          b.pathRoleCreateUpdate ParsePolicies req { data with name := some n2 }) ∧
      (∀ (req : Request) (data : RoleFieldData),
        b.pathRoleDelete req { data with name := some n1 } =
          b.pathRoleDelete req { data with name := some n2 }) ∧
      (∀ (ParsePolicies : List String → List String) (req : Request) (data : RoleFieldData),
        (b.pathRoleCreateUpdate ParsePolicies req { data with name := some n1 }).accepted =
            true →
          req.Storage.fault .Get ("role/" ++ strings.ToLower n1) = none →
          ∃ stored : roleEntry,
            b.role (b.pathRoleCreateUpdate ParsePolicies req
              { data with name := some n1 }).storage n2 = .ok (some stored)) ∧
      (∀ (req : Request) (data : RoleFieldData) (after : Storage) (found : roleEntry),
        b.pathRoleDelete req { data with name := some n1 } = ⟨none, none, after⟩ →
          b.role after n2 ≠ .ok (some found)) := by
  have hrole : ∀ s : Storage, b.role s n1 = b.role s n2 := fun s => role_congr b s n1 n2 hlower
  have hempty : n1 = "" ↔ n2 = "" := by
    rw [← ToLower_eq_empty n1, ← ToLower_eq_empty n2, hlower]
  refine ⟨hrole, ?_, ?_, ?_, ?_⟩
  · intro ParsePolicies req data
    unfold azureAuthBackend.pathRoleCreateUpdate
    simp only [getString, Option.getD_some, logical.StorageEntryJSON, hrole, hlower]
    by_cases h1 : n1 = ""
    · simp [h1, hempty.mp h1]
    · have h2 : ¬ n2 = "" := fun h => h1 (hempty.mpr h)
      rw [if_neg h1, if_neg h2]
  · intro req data
    unfold azureAuthBackend.pathRoleDelete
    simp only [getString, Option.getD_some, hlower]
    by_cases h1 : n1 = ""
    · simp [h1, hempty.mp h1]
    · have h2 : ¬ n2 = "" := fun h => h1 (hempty.mpr h)
      rw [if_neg h1, if_neg h2]
  · intro ParsePolicies req data hacc hget
    rcases pathRoleCreateUpdate_cases b ParsePolicies req { data with name := some n1 } with
      ⟨hrej, _⟩ | ⟨_, found, start, _, _, _, _, _, _, hout⟩
    · simp [RoleOutcome.accepted, hrej] at hacc
    · refine ⟨applyFields ParsePolicies req.Operation { data with name := some n1 } start, ?_⟩
      rw [← hrole, hout]
      exact role_after_write b req.Storage n1 _ hget
  · intro req data after found hdel hfound
    rw [← hrole] at hfound
    have hn : n1 ≠ "" := by
      intro h
      simp [azureAuthBackend.pathRoleDelete, getString, h] at hdel
    have hdelete : req.Storage.Delete ("role/" ++ strings.ToLower n1) = .ok after := by
      unfold azureAuthBackend.pathRoleDelete at hdel
      simp only [getString, Option.getD_some, hn, if_false] at hdel
      cases hd : req.Storage.Delete ("role/" ++ strings.ToLower n1) with
      | error e => simp [hd] at hdel
      | ok s2 =>
        simp only [hd, RoleOutcome.mk.injEq, true_and] at hdel
        rw [hdel]
    rcases Storage.Get_after_Delete _ _ _ hdelete with hget | ⟨e, hget⟩
    · simp [azureAuthBackend.role, hget] at hfound
    · simp [azureAuthBackend.role, hget] at hfound

/-- Witness of C15: `DEV` and `dev` are equal after lower-casing, and the role stored as `dev`
in the demo store is found under `DEV`. -/
theorem C15_role_names_case_insensitive_witness :
    demoBackend.role demoStorage "DEV" = demoBackend.role demoStorage "dev" :=
  (C15_role_names_case_insensitive demoBackend "DEV" "dev" (by decide)).1 demoStorage

/-! ## Role writes: the max_ttl warning, atomicity, update of an absent role -/

/-- C16: a create or update request that reaches the field applications, passes the period,
num_uses and ttl<=max_ttl validations and whose storage write does not fail is accepted with a
nil error, and the role is stored as applied, its max_ttl as converted from the request and
not truncated; when that max_ttl exceeds the system's maximum lease TTL the response is a
non-error response carrying the warning, and when it does not, no response and so no warning is
returned. -/
theorem C16_max_ttl_warning (b : azureAuthBackend) (ParsePolicies : List String → List String)
    (req : Request) (data : RoleFieldData) (found : Option roleEntry) (start : roleEntry)
    (hname : getString data.name ≠ "")
    (hfound : b.role req.Storage (getString data.name) = .ok found)
    (hstart : startingRole found req.Operation = some start)
    (hperiod : (applyFields ParsePolicies req.Operation data start).Period ≤ b.System.MaxLeaseTTL)
    (huses : 0 ≤ (applyFields ParsePolicies req.Operation data start).NumUses)
    (httl : ¬ ((applyFields ParsePolicies req.Operation data start).MaxTTL > 0 ∧
      (applyFields ParsePolicies req.Operation data start).TTL >
        (applyFields ParsePolicies req.Operation data start).MaxTTL))
    (hput : req.Storage.fault .Put ("role/" ++ strings.ToLower (getString data.name)) = none) :
    (b.pathRoleCreateUpdate ParsePolicies req data).err = none ∧
      (b.pathRoleCreateUpdate ParsePolicies req data).storage =
        ⟨("role/" ++ strings.ToLower (getString data.name),
            .roleJSON (applyFields ParsePolicies req.Operation data start)) ::
          req.Storage.entries.filter
            (fun e => e.1 != "role/" ++ strings.ToLower (getString data.name)),
          req.Storage.faults⟩ ∧
      (applyFields ParsePolicies req.Operation data start).MaxTTL =
        applyField req.Operation data.max_ttl secondsToDuration start.MaxTTL ∧
      ((applyFields ParsePolicies req.Operation data start).MaxTTL > b.System.MaxLeaseTTL →
        (b.pathRoleCreateUpdate ParsePolicies req data).resp =
            some ⟨none, [], [maxTTLWarning]⟩ ∧
          Response.IsError ⟨none, [], [maxTTLWarning]⟩ = false) ∧
      ((applyFields ParsePolicies req.Operation data start).MaxTTL ≤ b.System.MaxLeaseTTL →
        (b.pathRoleCreateUpdate ParsePolicies req data).resp = none) := by
  rw [pathRoleCreateUpdate_accepted b ParsePolicies req data found start _ hname hfound hstart
    hperiod huses httl (Storage.Put_ok _ _ _ hput)]
  refine ⟨rfl, rfl, ?_, ?_, ?_⟩
  · cases hp : data.policies <;> simp [applyFields]
  · intro h
    simp [h, Response.IsError]
  · intro h
    simp [not_lt.mpr h]

/-- Witness of C16: on the demo mount, whose maximum lease TTL is 32 days, a create of role
`web` with max_ttl 40 days is stored with that max_ttl and answered with the warning. -/
theorem C16_max_ttl_warning_witness :
    (demoBackend.pathRoleCreateUpdate id ⟨.CreateOperation, demoStorage, none⟩
        ⟨some "web", none, none, some 3600, some 3456000, none⟩).resp =
      some ⟨none, [], [maxTTLWarning]⟩ :=
  ((C16_max_ttl_warning demoBackend id ⟨.CreateOperation, demoStorage, none⟩
    ⟨some "web", none, none, some 3600, some 3456000, none⟩ none roleEntry.zero (by decide) rfl
    rfl (by decide) (by decide) (by decide) rfl).2.2.2.1 (by decide)).1

/-- C17: for every store state and non-empty role name `n`, a `pathRoleDelete` of `n` whose
storage delete does not fail succeeds with a nil response and a nil error whether or not the
role exists; afterwards no entry is stored under the key of `n` and `role` finds no role under
`n`; every role under another lower-cased name is found as before; and a second delete
succeeds and leaves the same store as the first. -/
theorem C17_delete_idempotent (b : azureAuthBackend) (req : Request) (data : RoleFieldData)
    (hname : getString data.name ≠ "")
    (hdel : req.Storage.fault .Delete ("role/" ++ strings.ToLower (getString data.name)) =
      none) :
    ∃ after : Storage,
      b.pathRoleDelete req data = ⟨none, none, after⟩ ∧
        after.entries.lookup ("role/" ++ strings.ToLower (getString data.name)) = none ∧
        (∀ found : roleEntry, b.role after (getString data.name) ≠ .ok (some found)) ∧
        (after.fault .Get ("role/" ++ strings.ToLower (getString data.name)) = none →
          b.role after (getString data.name) = .ok none) ∧
        (∀ other : String, strings.ToLower other ≠ strings.ToLower (getString data.name) →
          b.role after other = b.role req.Storage other) ∧
        b.pathRoleDelete { req with Storage := after } data = ⟨none, none, after⟩ := by
  refine ⟨⟨req.Storage.entries.filter
    (fun e => e.1 != "role/" ++ strings.ToLower (getString data.name)), req.Storage.faults⟩,
    ?_, ?_, ?_, ?_, ?_, ?_⟩
  · simp [azureAuthBackend.pathRoleDelete, hname, Storage.Delete_ok _ _ hdel]
  · exact lookup_filter_ne_self _ _
  · intro found hfound
    rcases Storage.Get_after_Delete _ _ _ (Storage.Delete_ok _ _ hdel) with hget | ⟨e, hget⟩
    · simp [azureAuthBackend.role, hget] at hfound
    · simp [azureAuthBackend.role, hget] at hfound
  · intro hget
    rw [role_of_lookup b _ _ hget]
    simp [lookup_filter_ne_self]
  · intro other hother
    unfold azureAuthBackend.role Storage.Get
    simp only [Storage.fault_mk, lookup_filter_ne_other _ _ _ (roleKey_ne _ _ hother)]
  · have hdel2 : Storage.fault
        ⟨req.Storage.entries.filter
          (fun e => e.1 != "role/" ++ strings.ToLower (getString data.name)),
          req.Storage.faults⟩ .Delete
        ("role/" ++ strings.ToLower (getString data.name)) = none := hdel
    simp [azureAuthBackend.pathRoleDelete, hname, Storage.Delete_ok _ _ hdel2,
      List.filter_filter]

/-- Witness of C17: on the demo store, a delete of `ghost`, which does not exist, succeeds and
leaves the store as it was. -/
theorem C17_delete_idempotent_witness :
    ∃ after : Storage,
      demoBackend.pathRoleDelete ⟨.DeleteOperation, demoStorage, none⟩
          ⟨some "ghost", none, none, none, none, none⟩ = ⟨none, none, after⟩ ∧
        demoBackend.pathRoleDelete ⟨.DeleteOperation, after, none⟩
          ⟨some "ghost", none, none, none, none, none⟩ = ⟨none, none, after⟩ :=
  have ⟨after, h⟩ := C17_delete_idempotent demoBackend ⟨.DeleteOperation, demoStorage, none⟩
    ⟨some "ghost", none, none, none, none, none⟩ (by decide) rfl
  ⟨after, h.1, h.2.2.2.2.2⟩

/-- C18: for every store state and every create or update request that `pathRoleCreateUpdate`
rejects, with an error response or with a fatal error, the storage after the call is the
storage before it; so every role, the one the request names included, is found as before. -/
theorem C18_rejected_write_is_atomic (b : azureAuthBackend)
    (ParsePolicies : List String → List String) (req : Request) (data : RoleFieldData)
    (hrejected : (b.pathRoleCreateUpdate ParsePolicies req data).rejected = true) :
    (b.pathRoleCreateUpdate ParsePolicies req data).storage = req.Storage ∧
      ∀ name : String,
        b.role (b.pathRoleCreateUpdate ParsePolicies req data).storage name =
          b.role req.Storage name := by
  rcases pathRoleCreateUpdate_cases b ParsePolicies req data with ⟨_, hsame⟩ | ⟨hacc, _⟩
  · exact ⟨hsame, fun name => by rw [hsame]⟩
  · rw [hacc] at hrejected
    cases hrejected

/-- Witness of C18: the rejected update of role `dev` to a negative `num_uses` leaves the demo
store, and with it the stored role `dev`, as it was. -/
theorem C18_rejected_write_is_atomic_witness :
    (demoBackend.pathRoleCreateUpdate id ⟨.UpdateOperation, demoStorage, none⟩
        ⟨some "dev", some ["admin"], some (-1), some 60, none, none⟩).storage = demoStorage :=
  (C18_rejected_write_is_atomic demoBackend id ⟨.UpdateOperation, demoStorage, none⟩
    ⟨some "dev", some ["admin"], some (-1), some 60, none, none⟩ (by decide)).1

/-! ## Seconds to nanoseconds -/

/-- C19: for every create request that reaches the write (non-empty name, role lookup and
storage write do not fail) and whose ttl, max_ttl and period in seconds (absent fields count as
0) lie in [0, 9223372036], the applied durations are exactly the seconds times 10^9, and the
request is accepted if and only if the period is at most the system's maximum lease TTL,
num_uses is at least 0, and max_ttl is 0 or ttl is at most max_ttl; and there is a ttl above
that range whose product with `time.Second` wraps modulo 2^64 and with which a request with
ttl > max_ttl > 0 is accepted. -/
theorem C19_seconds_conversion (b : azureAuthBackend)
    (ParsePolicies : List String → List String) :
    (∀ (req : Request) (data : RoleFieldData) (found : Option roleEntry) (start : roleEntry),
        req.Operation = .CreateOperation → getString data.name ≠ "" →
        b.role req.Storage (getString data.name) = .ok found →
        startingRole found req.Operation = some start →
        req.Storage.fault .Put ("role/" ++ strings.ToLower (getString data.name)) = none →
        0 ≤ getInt data.ttl ∧ getInt data.ttl ≤ 9223372036 →
        0 ≤ getInt data.max_ttl ∧ getInt data.max_ttl ≤ 9223372036 →
        0 ≤ getInt data.period ∧ getInt data.period ≤ 9223372036 →
        (applyFields ParsePolicies req.Operation data start).TTL =
            getInt data.ttl * 1000000000 ∧
          (applyFields ParsePolicies req.Operation data start).MaxTTL =
            getInt data.max_ttl * 1000000000 ∧
          (applyFields ParsePolicies req.Operation data start).Period =
            getInt data.period * 1000000000 ∧
          ((b.pathRoleCreateUpdate ParsePolicies req data).accepted = true ↔
            (getInt data.period * 1000000000 ≤ b.System.MaxLeaseTTL ∧
              0 ≤ getInt data.num_uses ∧
              (getInt data.max_ttl = 0 ∨ getInt data.ttl ≤ getInt data.max_ttl))) ∧
          ((b.pathRoleCreateUpdate ParsePolicies req data).accepted = true →
            (b.pathRoleCreateUpdate ParsePolicies req data).storage =
              ⟨("role/" ++ strings.ToLower (getString data.name),
                  .roleJSON (applyFields ParsePolicies req.Operation data start)) ::
                req.Storage.entries.filter
                  (fun e => e.1 != "role/" ++ strings.ToLower (getString data.name)),
                req.Storage.faults⟩)) ∧
      ∃ ttl maxTTL : Int,
        9223372036 < ttl ∧ secondsToDuration ttl = time.Second * ttl - 2 ^ 64 ∧
          0 < maxTTL ∧ maxTTL < ttl ∧
          (demoBackend.pathRoleCreateUpdate id ⟨.CreateOperation, demoStorage, none⟩
            ⟨some "web", none, none, some ttl, some maxTTL, none⟩).accepted = true := by
  constructor
  · intro req data found start hop hname hfound hstart hput httl hmax hperiod
    have e1 : (applyFields ParsePolicies req.Operation data start).TTL =
        getInt data.ttl * 1000000000 := by
      simp only [applyFields, hop, applyField_create]
      rw [secondsToDuration_exact _ (by omega) httl.2]
      ring
    have e2 : (applyFields ParsePolicies req.Operation data start).MaxTTL =
        getInt data.max_ttl * 1000000000 := by
      simp only [applyFields, hop, applyField_create]
      rw [secondsToDuration_exact _ (by omega) hmax.2]
      ring
    have e3 : (applyFields ParsePolicies req.Operation data start).Period =
        getInt data.period * 1000000000 := by
      simp only [applyFields, hop, applyField_create]
      rw [secondsToDuration_exact _ (by omega) hperiod.2]
      ring
    have e4 : (applyFields ParsePolicies req.Operation data start).NumUses =
        getInt data.num_uses := by
      simp only [applyFields, hop, applyField_create, id]
    refine ⟨e1, e2, e3, ?_, ?_⟩
    · constructor
      · intro hacc
        rcases pathRoleCreateUpdate_cases b ParsePolicies req data with
          ⟨hrej, _⟩ | ⟨_, found2, start2, hf2, hs2, h1, h2, h3, _, _⟩
        · simp [RoleOutcome.accepted, hrej] at hacc
        · rw [hfound] at hf2
          cases hf2
          rw [hstart] at hs2
          cases hs2
          rw [e3] at h1
          rw [e4] at h2
          rw [e1, e2] at h3
          refine ⟨h1, h2, ?_⟩
          by_cases hz : getInt data.max_ttl = 0
          · exact Or.inl hz
          · right
            by_contra hlt
            exact h3 ⟨by omega, by omega⟩
      · rintro ⟨h1, h2, h3⟩
        rw [pathRoleCreateUpdate_accepted b ParsePolicies req data found start _ hname hfound
          hstart (by rw [e3]; exact h1) (by rw [e4]; exact h2)
          (by rw [e1, e2]; rintro ⟨ha, hb⟩; rcases h3 with h3 | h3 <;> omega)
          (Storage.Put_ok _ _ _ hput)]
        split_ifs <;> simp [RoleOutcome.accepted, RoleOutcome.rejected, Response.IsError]
    · intro hacc
      rcases pathRoleCreateUpdate_cases b ParsePolicies req data with
        ⟨hrej, _⟩ | ⟨_, found2, start2, hf2, hs2, _, _, _, _, hout⟩
      · simp [RoleOutcome.accepted, hrej] at hacc
      · rw [hfound] at hf2
        cases hf2
        rw [hstart] at hs2
        cases hs2
        exact hout
  · exact ⟨9223372037, 1, by decide, by decide, by decide, by decide, by decide⟩

/-- Witness of C19: on the demo store a create of role `web` with ttl 3600s, max_ttl 7200s and
period 60s applies durations of exactly that many seconds. -/
theorem C19_seconds_conversion_witness :
    (applyFields id .CreateOperation ⟨some "web", none, none, some 3600, some 7200, some 60⟩
        roleEntry.zero).TTL = 3600 * 1000000000 ∧
      (applyFields id .CreateOperation ⟨some "web", none, none, some 3600, some 7200, some 60⟩
        roleEntry.zero).MaxTTL = 7200 * 1000000000 ∧
      (applyFields id .CreateOperation ⟨some "web", none, none, some 3600, some 7200, some 60⟩
        roleEntry.zero).Period = 60 * 1000000000 :=
  have h := (C19_seconds_conversion demoBackend id).1 ⟨.CreateOperation, demoStorage, none⟩
    ⟨some "web", none, none, some 3600, some 7200, some 60⟩ none roleEntry.zero rfl (by decide)
    rfl rfl rfl (by decide) (by decide) (by decide)
  ⟨h.1, h.2.1, h.2.2.1⟩

/-- C20: for every store state in which role `n` (a non-empty name) is absent,
`pathRoleCreateUpdate` invoked as an update on `n` returns the fatal error
`role entry not found during update operation` with a nil response, leaves the storage as it
was, and `n` is still absent afterwards; invoked as a create it proceeds from a zero-valued
role: the role it validates and writes has the supplied fields and zero or empty for the absent
ones, the outcome is the three validations on that role followed by the write, and when the
validations pass and the storage does not fail the role is stored and found under `n`. -/
theorem C20_update_of_absent_role (b : azureAuthBackend)
    (ParsePolicies : List String → List String) (req : Request) (data : RoleFieldData)
    (hname : getString data.name ≠ "")
    (habsent : b.role req.Storage (getString data.name) = .ok none) :
    (req.Operation = .UpdateOperation →
        b.pathRoleCreateUpdate ParsePolicies req data =
            ⟨none, some "role entry not found during update operation", req.Storage⟩ ∧
          b.role (b.pathRoleCreateUpdate ParsePolicies req data).storage (getString data.name) =
            .ok none) ∧
      (req.Operation = .CreateOperation →
        ∃ created : roleEntry,
          created =
              ⟨match data.policies with
                | some policiesRaw => ParsePolicies policiesRaw
                | none => [],
                getInt data.num_uses, secondsToDuration (getInt data.ttl),
                secondsToDuration (getInt data.max_ttl),
                secondsToDuration (getInt data.period)⟩ ∧
            b.pathRoleCreateUpdate ParsePolicies req data =
              (if created.Period > b.System.MaxLeaseTTL then
                ⟨some (logical.ErrorResponse
                    (periodMessage created.Period b.System.MaxLeaseTTL)),
                  none, req.Storage⟩
              else if created.NumUses < 0 then
                ⟨some (logical.ErrorResponse "num_uses cannot be negative"), none, req.Storage⟩
              else if created.MaxTTL > 0 ∧ created.TTL > created.MaxTTL then
                ⟨some (logical.ErrorResponse "ttl should not be greater than max_ttl"), none,
                  req.Storage⟩
              else
                match req.Storage.Put ⟨"role/" ++ strings.ToLower (getString data.name),
                    .roleJSON created⟩ with
                | .error err => ⟨none, some err, req.Storage⟩
                | .ok storage =>
                  ⟨if created.MaxTTL > b.System.MaxLeaseTTL
                      then some ⟨none, [], [maxTTLWarning]⟩ else none,
                    none, storage⟩) ∧
            (created.Period ≤ b.System.MaxLeaseTTL → 0 ≤ created.NumUses →
              ¬ (created.MaxTTL > 0 ∧ created.TTL > created.MaxTTL) →
              req.Storage.fault .Put ("role/" ++ strings.ToLower (getString data.name)) = none →
              req.Storage.fault .Get ("role/" ++ strings.ToLower (getString data.name)) = none →
              (b.pathRoleCreateUpdate ParsePolicies req data).err = none ∧
                (b.pathRoleCreateUpdate ParsePolicies req data).accepted = true ∧
                (b.pathRoleCreateUpdate ParsePolicies req data).storage =
                  ⟨("role/" ++ strings.ToLower (getString data.name), .roleJSON created) ::
                    req.Storage.entries.filter
                      (fun e => e.1 != "role/" ++ strings.ToLower (getString data.name)),
                    req.Storage.faults⟩ ∧
                b.role (b.pathRoleCreateUpdate ParsePolicies req data).storage
                  (getString data.name) = .ok (some created))) := by
  constructor
  · intro hop
    have hout : b.pathRoleCreateUpdate ParsePolicies req data =
        ⟨none, some "role entry not found during update operation", req.Storage⟩ := by
      simp [azureAuthBackend.pathRoleCreateUpdate, hname, habsent, startingRole, hop]
    exact ⟨hout, by rw [hout]; exact habsent⟩
  · intro hop
    have hstart : startingRole none req.Operation = some roleEntry.zero := by
      simp [startingRole, hop]
    have happlied : applyFields ParsePolicies req.Operation data roleEntry.zero =
        ⟨match data.policies with
          | some policiesRaw => ParsePolicies policiesRaw
          | none => [],
          getInt data.num_uses, secondsToDuration (getInt data.ttl),
          secondsToDuration (getInt data.max_ttl),
          secondsToDuration (getInt data.period)⟩ := by
      cases hp : data.policies <;>
        simp [applyFields, hop, applyField_create, roleEntry.zero, hp]
    have heq := pathRoleCreateUpdate_eq b ParsePolicies req data none roleEntry.zero hname
      habsent hstart
    rw [happlied] at heq
    refine ⟨_, rfl, heq, ?_⟩
    intro hperiod huses httl hput hget
    have hacc := pathRoleCreateUpdate_accepted b ParsePolicies req data none roleEntry.zero _
      hname habsent hstart (by rw [happlied]; exact hperiod) (by rw [happlied]; exact huses)
      (by rw [happlied]; exact httl) (Storage.Put_ok _ _ _ hput)
    rw [happlied] at hacc
    rw [hacc]
    refine ⟨rfl, ?_, rfl, role_after_write b req.Storage _ _ hget⟩
    split_ifs <;> simp [RoleOutcome.accepted, RoleOutcome.rejected, Response.IsError]

/-- Witness of C20: on the demo store, where `ghost` is absent, an update of `ghost` is a fatal
error that leaves the store as it was, and a create of `ghost` that carries only policies
`default` and ttl 60s stores a role with those two fields and zero for the others. -/
theorem C20_update_of_absent_role_witness :
    demoBackend.pathRoleCreateUpdate id ⟨.UpdateOperation, demoStorage, none⟩
        ⟨some "ghost", some ["default"], none, some 60, none, none⟩ =
      ⟨none, some "role entry not found during update operation", demoStorage⟩ ∧
    ∃ created : roleEntry,
      created = ⟨["default"], 0, secondsToDuration 60, secondsToDuration 0,
        secondsToDuration 0⟩ ∧
      (demoBackend.pathRoleCreateUpdate id ⟨.CreateOperation, demoStorage, none⟩
          ⟨some "ghost", some ["default"], none, some 60, none, none⟩).storage =
        ⟨("role/ghost", .roleJSON created) :: demoStorage.entries, []⟩ ∧
      demoBackend.role
          (demoBackend.pathRoleCreateUpdate id ⟨.CreateOperation, demoStorage, none⟩
            ⟨some "ghost", some ["default"], none, some 60, none, none⟩).storage "ghost" =
        .ok (some created) :=
  ⟨((C20_update_of_absent_role demoBackend id ⟨.UpdateOperation, demoStorage, none⟩
      ⟨some "ghost", some ["default"], none, some 60, none, none⟩ (by decide) rfl).1 rfl).1,
    have ⟨created, hc, _, h⟩ :=
      (C20_update_of_absent_role demoBackend id ⟨.CreateOperation, demoStorage, none⟩
        ⟨some "ghost", some ["default"], none, some 60, none, none⟩ (by decide) rfl).2 rfl
    have hall := h (by rw [hc]; decide) (by rw [hc]; decide) (by rw [hc]; decide) rfl rfl
    ⟨created, hc, hall.2.2.1, hall.2.2.2⟩⟩

end AzureAuth
